import Mathlib

/-!
Verification development for the FreshLense change-significance and
versioning engine (`backend/app/services/diff_service.py`,
`backend/app/services/versioning_service.py`, `backend/app/scheduler.py`,
`backend/app/database.py`).

The Python code is shallowly embedded:
* Python `str` becomes Lean `String`; helper functions mirror the CPython
  behaviour of `str.splitlines`, `str.split`, `re.findall (pattern \S+ or
  \s+)` and `html.escape` restricted to the common newline characters
  (`\n`, `\r\n`, `\r`) and ASCII case folding, which covers every input
  appearing in the claims.
* `difflib.SequenceMatcher(None, a, b)` (standard library, called by the
  repository) is embedded as the published core algorithm
  (`find_longest_match` dynamic programming with the non-junk extension
  loops, `get_matching_blocks` with the adjacent-block merge, and
  `get_opcodes`); the junk machinery is inert because the repository always
  passes `isjunk=None`, and the `autojunk` popularity heuristic is omitted.
* Python floats become `ℚ`; `round(x, n)` becomes round-half-to-even.
* `hashlib.sha256` / `hashlib.md5` (external library calls) are
  parameters `(contentHashFn checksumFn : String → String)` of the
  embedded operations, since only the branch structure that consumes their
  results belongs to the repository.
* Fallible code returns `Except PyError`; in particular
  `DiffService.calculate_change_metrics` evaluates the generator
  expression `sum(size for tag, i1, i2, j1, j2 in ... if tag != ...)`
  whose body names the unbound variable `size`, which raises `NameError`
  as soon as the generator yields its first item.
-/

/-- Errors a modelled Python function can raise. -/
inductive PyError where
  /-- `NameError: name 'size' is not defined`, raised by the generator
  expressions in `DiffService.calculate_change_metrics` (diff_service.py
  lines 354 and 359) when they produce at least one item. -/
  | nameErrorSize
deriving Repr, DecidableEq

/-! ## Python string helpers -/

/-- `str.splitlines` / `str.splitlines(keepends=True)` over the char list,
restricted to the `\n`, `\r\n`, `\r` line terminators. -/
def pySplitlinesAux (keepends : Bool) : List Char → List Char → List (List Char)
  | '\r' :: '\n' :: rest, acc =>
      (acc.reverse ++ if keepends then ['\r', '\n'] else []) :: pySplitlinesAux keepends rest []
  | '\r' :: rest, acc =>
      (acc.reverse ++ if keepends then ['\r'] else []) :: pySplitlinesAux keepends rest []
  | '\n' :: rest, acc =>
      (acc.reverse ++ if keepends then ['\n'] else []) :: pySplitlinesAux keepends rest []
  | c :: rest, acc => pySplitlinesAux keepends rest (c :: acc)
  | [], [] => []
  | [], acc => [acc.reverse]

/-- `text.splitlines()` -/
def pySplitlines (s : String) : List String :=
  (pySplitlinesAux false s.data []).map fun l => ⟨l⟩

/-- `text.splitlines(keepends=True)` -/
def pySplitlinesKeepends (s : String) : List String :=
  (pySplitlinesAux true s.data []).map fun l => ⟨l⟩

/-- `str.split()` with no argument: split on runs of whitespace, dropping
empty fields. -/
def pySplitWsAux : List Char → List Char → List (List Char)
  | [], [] => []
  | [], acc => [acc.reverse]
  | c :: rest, acc =>
      if c.isWhitespace then
        if acc = [] then pySplitWsAux rest []
        else acc.reverse :: pySplitWsAux rest []
      else pySplitWsAux rest (c :: acc)

/-- `text.split()` -/
def pySplitWs (s : String) : List String :=
  (pySplitWsAux s.data []).map fun l => ⟨l⟩

/-- `re.findall` with the pattern "non-space run or space run": tokenizes a
string into maximal runs of whitespace / non-whitespace, preserving all
characters.  Used by the word-level diff helpers. -/
def wsTokensAux : List Char → List Char → List (List Char)
  | [], [] => []
  | [], acc => [acc.reverse]
  | c :: rest, acc =>
      match acc with
      | [] => wsTokensAux rest [c]
      | a :: _ =>
          if a.isWhitespace = c.isWhitespace then wsTokensAux rest (c :: acc)
          else acc.reverse :: wsTokensAux rest [c]

/-- Tokenize into maximal whitespace / non-whitespace runs. -/
def wsTokens (s : String) : List String :=
  (wsTokensAux s.data []).map fun l => ⟨l⟩

/-- `html.escape(s)` with the default `quote=True`. -/
def escapeHtml (s : String) : String :=
  ⟨s.data.foldr (fun c acc =>
    if c = '&' then ('&' :: 'a' :: 'm' :: 'p' :: ';' :: acc)
    else if c = '<' then ('&' :: 'l' :: 't' :: ';' :: acc)
    else if c = '>' then ('&' :: 'g' :: 't' :: ';' :: acc)
    else if c = '"' then ('&' :: 'q' :: 'u' :: 'o' :: 't' :: ';' :: acc)
    else if c = Char.ofNat 39 then ('&' :: '#' :: 'x' :: '2' :: '7' :: ';' :: acc)
    else c :: acc) []⟩

/-- `str.lower()` (ASCII case folding). -/
def pyLower (s : String) : String := s.toLower

/-- `sub in s` membership test between strings. -/
def strContains (s sub : String) : Bool := decide (sub.data <:+: s.data)

/-- `s.find(sub)`: index of the first occurrence, `none` when absent. -/
def strFind (s sub : String) : Option Nat :=
  (List.range (s.data.length + 1)).find? fun i => sub.data.isPrefixOf (s.data.drop i)

/-- Python `str.strip()` truthiness test: `word.strip()` is truthy exactly
when the string has a non-whitespace character. -/
def hasNonWs (s : String) : Bool := s.data.any fun c => ¬ c.isWhitespace

/-- Round-half-to-even to an integer (semantics of Python `round`). -/
def pyRoundInt (x : ℚ) : ℤ :=
  let f : ℤ := ⌊x⌋
  let frac : ℚ := x - (f : ℚ)
  if frac < 1/2 then f
  else if 1/2 < frac then f + 1
  else if f % 2 = 0 then f else f + 1

/-- Python `round(x, n)` on our rational model of floats. -/
def pyRound (x : ℚ) (n : ℕ) : ℚ :=
  ((pyRoundInt (x * (10 ^ n : ℕ))) : ℚ) / ((10 ^ n : ℕ) : ℚ)

/-- The digits of a natural number as a string (via `Nat.repr`). -/
def natStr (n : ℕ) : String := toString n

/-- Python fixed-point formatting `"%.1f" % x` for the nonnegative rationals
produced by the metrics (one digit after the point, round-half-to-even). -/
def formatFixed1 (x : ℚ) : String :=
  let t : ℤ := pyRoundInt (x * 10)
  let n : ℕ := t.toNat
  natStr (n / 10) ++ "." ++ natStr (n % 10)

/-- Python percent formatting with one digit: the `.1%` conversion. -/
def formatPercent1 (x : ℚ) : String := formatFixed1 (x * 100) ++ "%"

/-- A single-quote character as a string (used inside reason messages). -/
def sglQuote : String := ⟨[Char.ofNat 39]⟩

/-! ## `difflib.SequenceMatcher(None, a, b)`

The embedding follows CPython's `difflib.py`:
`find_longest_match` is the chain-growing dynamic program over `b2j`
(positions of each element of `b`), followed by the two "extend by
non-junk elements" loops; the junk-extension loops never run because the
junk set is empty.  `j2len` is modelled as a total function defaulting
to `0`, which is exactly a Python dict read through `.get(j-1, 0)`. -/

/-- Inner loop of `find_longest_match`: process one candidate position `j`
of `b` matching `a[i]`.  State: the dict `newj2len` being built, and the
current `(besti, bestj, bestsize)`. -/
def flmInnerStep (j2len : ℕ → ℕ) (i : ℕ)
    (st : (ℕ → ℕ) × ℕ × ℕ × ℕ) (j : ℕ) : (ℕ → ℕ) × ℕ × ℕ × ℕ :=
  let k := (if j = 0 then 0 else j2len (j - 1)) + 1
  let newj2len : ℕ → ℕ := fun j' => if j' = j then k else st.1 j'
  if st.2.2.2 < k then (newj2len, i + 1 - k, j + 1 - k, k)
  else (newj2len, st.2)

/-- The ascending list of positions `j` of `b` with `blo <= j < bhi` whose
element equals `a[i]` — the `b2j` lookup restricted to the window (the
`continue`/`break` guards of the CPython loop). -/
def flmCandidates {α : Type} [DecidableEq α] (a b : List α)
    (blo bhi i : ℕ) : List ℕ :=
  (List.range b.length).filter fun j => blo ≤ j ∧ j < bhi ∧ b.get? j = a.get? i

/-- Outer loop of `find_longest_match`: process one index `i` of `a`. -/
def flmOuterStep {α : Type} [DecidableEq α] (a b : List α) (blo bhi : ℕ)
    (st : (ℕ → ℕ) × ℕ × ℕ × ℕ) (i : ℕ) : (ℕ → ℕ) × ℕ × ℕ × ℕ :=
  (flmCandidates a b blo bhi i).foldl (flmInnerStep st.1 i) ((fun _ => 0), st.2)

/-- First "extend by matching elements" loop (towards lower indices). -/
def flmExtendLow {α : Type} [DecidableEq α] (a b : List α) (alo blo : ℕ) :
    ℕ → ℕ × ℕ × ℕ → ℕ × ℕ × ℕ
  | 0, best => best
  | fuel + 1, (besti, bestj, bestsize) =>
      if alo < besti ∧ blo < bestj ∧ a.get? (besti - 1) = b.get? (bestj - 1) then
        flmExtendLow a b alo blo fuel (besti - 1, bestj - 1, bestsize + 1)
      else (besti, bestj, bestsize)

/-- Second "extend by matching elements" loop (towards higher indices). -/
def flmExtendHigh {α : Type} [DecidableEq α] (a b : List α) (ahi bhi : ℕ) :
    ℕ → ℕ × ℕ × ℕ → ℕ × ℕ × ℕ
  | 0, best => best
  | fuel + 1, (besti, bestj, bestsize) =>
      if besti + bestsize < ahi ∧ bestj + bestsize < bhi ∧
          a.get? (besti + bestsize) = b.get? (bestj + bestsize) then
        flmExtendHigh a b ahi bhi fuel (besti, bestj, bestsize + 1)
      else (besti, bestj, bestsize)

/-- `SequenceMatcher.find_longest_match(alo, ahi, blo, bhi)` with an empty
junk set. -/
def findLongestMatch {α : Type} [DecidableEq α] (a b : List α)
    (alo ahi blo bhi : ℕ) : ℕ × ℕ × ℕ :=
  let dp := (((List.range (ahi - alo)).map (· + alo)).foldl
    (flmOuterStep a b blo bhi) ((fun _ => 0), (alo, blo, 0))).2
  flmExtendHigh a b ahi bhi ahi (flmExtendLow a b alo blo dp.1 dp)

/-- The recursive block collection of `get_matching_blocks` (the CPython
queue produces the same blocks, sorted).  `fuel` dominates the recursion
depth; `a.length + b.length + 1` always suffices. -/
def matchingBlocksAux {α : Type} [DecidableEq α] (a b : List α) :
    ℕ → ℕ → ℕ → ℕ → ℕ → List (ℕ × ℕ × ℕ)
  | 0, _, _, _, _ => []
  | fuel + 1, alo, ahi, blo, bhi =>
      let m := findLongestMatch a b alo ahi blo bhi
      if m.2.2 = 0 then []
      else
        matchingBlocksAux a b fuel alo m.1 blo m.2.1 ++
        [m] ++
        matchingBlocksAux a b fuel (m.1 + m.2.2) ahi (m.2.1 + m.2.2) bhi

/-- The adjacent-block merge loop at the end of `get_matching_blocks`. -/
def mergeBlocksLoop : ℕ × ℕ × ℕ → List (ℕ × ℕ × ℕ) → List (ℕ × ℕ × ℕ)
  | (i1, j1, k1), [] => if k1 ≠ 0 then [(i1, j1, k1)] else []
  | (i1, j1, k1), (i2, j2, k2) :: rest =>
      if i1 + k1 = i2 ∧ j1 + k1 = j2 then mergeBlocksLoop (i1, j1, k1 + k2) rest
      else (if k1 ≠ 0 then [(i1, j1, k1)] else []) ++ mergeBlocksLoop (i2, j2, k2) rest

/-- `SequenceMatcher.get_matching_blocks()`, including the terminal
`(len(a), len(b), 0)` sentinel. -/
def getMatchingBlocks {α : Type} [DecidableEq α] (a b : List α) :
    List (ℕ × ℕ × ℕ) :=
  mergeBlocksLoop (0, 0, 0)
    (matchingBlocksAux a b (a.length + b.length + 1) 0 a.length 0 b.length) ++
  [(a.length, b.length, 0)]

/-- The four opcode tags of `SequenceMatcher.get_opcodes()`. -/
inductive OpTag where
  | equal
  | replace
  | delete
  | insert
deriving Repr, DecidableEq

/-- One opcode `(tag, i1, i2, j1, j2)`. -/
structure Opcode where
  tag : OpTag
  i1 : ℕ
  i2 : ℕ
  j1 : ℕ
  j2 : ℕ
deriving Repr, DecidableEq

/-- The opcode construction loop of `get_opcodes` over the matching
blocks, carrying the `(i, j)` cursor. -/
def opcodesLoop : ℕ → ℕ → List (ℕ × ℕ × ℕ) → List Opcode
  | _, _, [] => []
  | i, j, (ai, bj, size) :: rest =>
      let gap : List Opcode :=
        if i < ai ∧ j < bj then [⟨.replace, i, ai, j, bj⟩]
        else if i < ai then [⟨.delete, i, ai, j, bj⟩]
        else if j < bj then [⟨.insert, i, ai, j, bj⟩]
        else []
      let eq : List Opcode :=
        if size ≠ 0 then [⟨.equal, ai, ai + size, bj, bj + size⟩] else []
      gap ++ eq ++ opcodesLoop (ai + size) (bj + size) rest

/-- `SequenceMatcher.get_opcodes()`. -/
def getOpcodes {α : Type} [DecidableEq α] (a b : List α) : List Opcode :=
  opcodesLoop 0 0 (getMatchingBlocks a b)

/-- Total number of matched elements (the `matches` of `ratio()`). -/
def totalMatched {α : Type} [DecidableEq α] (a b : List α) : ℕ :=
  (getMatchingBlocks a b).foldl (fun acc m => acc + m.2.2) 0

/-- `SequenceMatcher.ratio()`: `2*M / (len(a)+len(b))` (the repository
never calls it with two empty sequences on a path a claim touches; Lean's
division by zero yields 0 there). -/
def seqSimilarity {α : Type} [DecidableEq α] (a b : List α) : ℚ :=
  2 * (totalMatched a b : ℚ) / ((a.length : ℚ) + (b.length : ℚ))

example : getOpcodes "ab".data "ab".data = [⟨.equal, 0, 2, 0, 2⟩] := by decide
example : getOpcodes "ab".data "ax".data =
    [⟨.equal, 0, 1, 0, 1⟩, ⟨.replace, 1, 2, 1, 2⟩] := by decide
example : totalMatched "abcd".data "bcde".data = 3 := by decide

/-! ## Diff schema (`backend/app/schemas/diff.py`) -/

/-- `ChangeType` -/
inductive ChangeType where
  | added
  | removed
  | modified
deriving Repr, DecidableEq

/-- `ContentChange` (the optional metadata word/char-count fields, never
set by `DiffService`, are omitted). -/
structure ContentChange where
  changeType : ChangeType
  oldContent : String
  newContent : String
  lineRangeOld : ℕ × ℕ
  lineRangeNew : ℕ × ℕ
  contextBefore : String
  contextAfter : String
  highlightedOld : String
  highlightedNew : String
  changeSummary : Option String
deriving Repr, DecidableEq

/-! ## `DiffService` (`backend/app/services/diff_service.py`) -/

/-- Wrap one word in a highlight span (the f-string used by the
highlight helpers). -/
def hlSpan (cls : String) (w : String) : String :=
  "<span class=\"" ++ cls ++ "\">" ++ escapeHtml w ++ "</span>"

/-- Highlight the non-whitespace tokens of a token list. -/
def hlTokens (cls : String) (ws : List String) : List String :=
  ws.map fun w => if hasNonWs w then hlSpan cls w else w

/-- `DiffService._highlight_word_changes` -/
def highlightWordChanges (oldText newText : String) : String × String :=
  let oldWords := wsTokens oldText
  let newWords := wsTokens newText
  let r := (getOpcodes oldWords newWords).foldl
    (fun (acc : List String × List String) op =>
      let oldSeg := (oldWords.drop op.i1).take (op.i2 - op.i1)
      let newSeg := (newWords.drop op.j1).take (op.j2 - op.j1)
      match op.tag with
      | .equal => (acc.1 ++ oldSeg, acc.2 ++ newSeg)
      | .replace =>
          (acc.1 ++ hlTokens "removed-word" oldSeg, acc.2 ++ hlTokens "added-word" newSeg)
      | .delete => (acc.1 ++ hlTokens "removed-word" oldSeg, acc.2)
      | .insert => (acc.1, acc.2 ++ hlTokens "added-word" newSeg))
    ([], [])
  (String.join r.1, String.join r.2)

/-- `DiffService._highlight_added_text` -/
def highlightAddedText (text : String) : String :=
  String.join ((pySplitlinesKeepends text).map fun line =>
    if hasNonWs line then String.join (hlTokens "added-word" (wsTokens line)) else line)

/-- `DiffService._highlight_removed_text` -/
def highlightRemovedText (text : String) : String :=
  String.join ((pySplitlinesKeepends text).map fun line =>
    if hasNonWs line then String.join (hlTokens "removed-word" (wsTokens line)) else line)

/-- `DiffService._get_change_summary` -/
def getChangeSummary (oldText newText : String) : String :=
  let oldWords := pySplitWs oldText
  let newWords := pySplitWs newText
  let added := (newWords.dedup.filter fun w => decide (w ∉ oldWords)).length
  let removed := (oldWords.dedup.filter fun w => decide (w ∉ newWords)).length
  "Changed " ++ natStr added ++ " words added, " ++ natStr removed ++ " words removed"

/-- The per-opcode body of the `compare_text` loop (diff_service.py lines
51-114). -/
def opcodeChanges (oldLines newLines : List String) (op : Opcode) : List ContentChange :=
  let oldChunk := (oldLines.drop op.i1).take (op.i2 - op.i1)
  let newChunk := (newLines.drop op.j1).take (op.j2 - op.j1)
  let contextBeforeOld := (oldLines.drop (op.i1 - 2)).take (op.i1 - (op.i1 - 2))
  let contextAfterOld := (oldLines.drop op.i2).take 2
  let contextBeforeNew := (newLines.drop (op.j1 - 2)).take (op.j1 - (op.j1 - 2))
  let contextAfterNew := (newLines.drop op.j2).take 2
  let oldChunkStr := String.join oldChunk
  let newChunkStr := String.join newChunk
  let contextBeforeStr := String.join (contextBeforeOld ++ contextBeforeNew)
  let contextAfterStr := String.join (contextAfterOld ++ contextAfterNew)
  match op.tag with
  | .equal => []
  | .replace =>
      let hl := highlightWordChanges oldChunkStr newChunkStr
      [{ changeType := .modified
         oldContent := oldChunkStr
         newContent := newChunkStr
         lineRangeOld := (op.i1, op.i2)
         lineRangeNew := (op.j1, op.j2)
         contextBefore := contextBeforeStr
         contextAfter := contextAfterStr
         highlightedOld := hl.1
         highlightedNew := hl.2
         changeSummary := some (getChangeSummary oldChunkStr newChunkStr) }]
  | .delete =>
      [{ changeType := .removed
         oldContent := oldChunkStr
         newContent := ""
         lineRangeOld := (op.i1, op.i2)
         lineRangeNew := (op.j1, op.j1)
         contextBefore := contextBeforeStr
         contextAfter := contextAfterStr
         highlightedOld := highlightRemovedText oldChunkStr
         highlightedNew := ""
         changeSummary := some ("Removed " ++ natStr oldChunk.length ++ " lines") }]
  | .insert =>
      [{ changeType := .added
         oldContent := ""
         newContent := newChunkStr
         lineRangeOld := (op.i1, op.i1)
         lineRangeNew := (op.j1, op.j2)
         contextBefore := contextBeforeStr
         contextAfter := contextAfterStr
         highlightedOld := ""
         highlightedNew := highlightAddedText newChunkStr
         changeSummary := some ("Added " ++ natStr newChunk.length ++ " lines") }]

/-- `DiffService.compare_text` -/
def compareText (oldText newText : String) : List ContentChange :=
  if oldText = "" ∧ newText ≠ "" then
    [{ changeType := .added
       oldContent := ""
       newContent := newText
       lineRangeOld := (0, 0)
       lineRangeNew := (0, (pySplitlines newText).length)
       contextBefore := ""
       contextAfter := ""
       highlightedOld := ""
       highlightedNew := highlightAddedText newText
       changeSummary := none }]
  else if oldText ≠ "" ∧ newText = "" then
    [{ changeType := .removed
       oldContent := oldText
       newContent := ""
       lineRangeOld := (0, (pySplitlines oldText).length)
       lineRangeNew := (0, 0)
       contextBefore := ""
       contextAfter := ""
       highlightedOld := highlightRemovedText oldText
       highlightedNew := ""
       changeSummary := none }]
  else
    let oldLines := pySplitlinesKeepends oldText
    let newLines := pySplitlinesKeepends newText
    (getOpcodes oldLines newLines).flatMap (opcodeChanges oldLines newLines)

/-- The fixed keyword vocabulary (`tech_keywords` in
`calculate_change_metrics`; the same list appears as
`important_keywords` in `VersioningService.analyze_change_significance`). -/
def techKeywords : List String :=
  ["security", "vulnerability", "update", "critical", "bug", "fix",
   "release", "version", "deprecated", "breaking", "important",
   "urgent", "warning", "alert", "patch", "exploit", "risk",
   "cve-", "mitigation", "workaround", "upgrade", "downgrade",
   "compatibility", "performance", "memory", "cpu", "storage",
   "latency", "throughput", "regression", "feature", "api"]

/-- `DiffService._extract_keyword_context` -/
def extractKeywordContext (keyword text : String) (contextChars : ℕ) : String :=
  if text = "" then ""
  else
    match strFind (pyLower text) keyword with
    | none => ""
    | some idx =>
        let start := idx - contextChars
        let stop := min text.data.length (idx + keyword.length + contextChars)
        let ctx : String := ⟨(text.data.drop start).take (stop - start)⟩
        let ctx := if 0 < start then "..." ++ ctx else ctx
        if stop < text.data.length then ctx ++ "..." else ctx

/-- The keyword-scanning loop of `calculate_change_metrics`: counts
presence/absence flips over the fixed vocabulary and collects
`(keyword, action, context)` detail records. -/
def keywordScan (oldText newText : String) : ℕ × List (String × String × String) :=
  let oldLower := pyLower oldText
  let newLower := pyLower newText
  techKeywords.foldl
    (fun acc kw =>
      let oldHas := strContains oldLower kw
      let newHas := strContains newLower kw
      if oldHas ≠ newHas then
        (acc.1 + 1,
         acc.2 ++ [(kw,
                    if newHas ∧ ¬ oldHas = true then "added" else "removed",
                    extractKeywordContext kw (if oldHas then oldText else newText) 100)])
      else acc)
    (0, [])

/-- The `significance_components` dict; the source keys are
`character_similarity`, `word_change_ratio`, `line_change_ratio`,
`keyword_changes`, `structural_changes` (all Python floats). -/
structure SignificanceComponents where
  characterSimilarity : ℚ
  wordChangePart : ℚ
  lineChangePart : ℚ
  keywordChanges : ℚ
  structuralChanges : ℚ
deriving Repr, DecidableEq

/-- `DiffService._calculate_significance_score`: weighted, per-component
clamped combination, capped at 1. -/
def calculateSignificanceScore (c : SignificanceComponents) : ℚ :=
  let score : ℚ := 0
  let score := score + (100 - min c.characterSimilarity 100) / 100 * mkRat 3 10
  let score := score + min c.wordChangePart 100 / 100 * mkRat 4 10
  let score := score + min c.lineChangePart 100 / 100 * mkRat 2 10
  let score := score + min c.keywordChanges 10 / 10 * mkRat 1 10
  let score := score + min c.structuralChanges 100 / 100 * mkRat 1 10
  min score 1

/-- The generator expression
`sum(size for tag, i1, i2, j1, j2 in differ.get_opcodes() if tag != ...)`
of `calculate_change_metrics`: the name `size` is not bound anywhere, so
the first produced item raises `NameError`; when every opcode is filtered
out the sum of the empty generator is `0`. -/
def genexpSumSize (ops : List Opcode) : Except PyError ℕ :=
  if ops.all (fun op => decide (op.tag = OpTag.equal)) then .ok 0
  else .error .nameErrorSize

/-- The dict returned by `DiffService.calculate_change_metrics`. -/
structure ChangeMetrics where
  wordsAdded : ℕ
  wordsRemoved : ℕ
  totalWordsOld : ℕ
  totalWordsNew : ℕ
  similarityScore : ℚ
  changePercentage : ℚ
  linesAdded : ℕ
  linesRemoved : ℕ
  wordChangePercentage : ℚ
  lineChangePercentage : ℚ
  characterSimilarity : ℚ
  structuralChangeCount : ℕ
  wordChangeCount : ℕ
  significanceScore : ℚ
  keywordChanges : ℕ
  keywordDetails : List (String × String × String)
  significanceComponents : SignificanceComponents
  contentHashOld : Option String
  contentHashNew : Option String
  checksumOld : Option String
  checksumNew : Option String
deriving Repr, DecidableEq

/-- `DiffService.calculate_change_metrics`.  The two hash helpers
(`hashlib.sha256` / `hashlib.md5` over the UTF-8 bytes) are the
parameters `contentHashFn` / `checksumFn`. -/
def calculateChangeMetrics (contentHashFn checksumFn : String → String)
    (oldText newText : String) : Except PyError ChangeMetrics :=
  let wordsOld := pySplitWs oldText
  let wordsNew := pySplitWs newText
  let charSimilarity := seqSimilarity oldText.data newText.data
  let oldLines := pySplitlines oldText
  let newLines := pySplitlines newText
  do
  let wordChanges ← genexpSumSize (getOpcodes wordsOld wordsNew)
  let lineChanges ← genexpSumSize (getOpcodes oldLines newLines)
  let totalWordsOld := wordsOld.length
  let totalWordsNew := wordsNew.length
  let totalLinesOld := oldLines.length
  let totalLinesNew := newLines.length
  let wordChangePercentage : ℚ :=
    (wordChanges : ℚ) / (max totalWordsOld (max totalWordsNew 1) : ℚ) * 100
  let lineChangePercentage : ℚ :=
    (lineChanges : ℚ) / (max totalLinesOld (max totalLinesNew 1) : ℚ) * 100
  let ks := keywordScan oldText newText
  let components : SignificanceComponents :=
    { characterSimilarity := charSimilarity * 100
      wordChangePart := wordChangePercentage
      lineChangePart := lineChangePercentage
      keywordChanges := (ks.1 : ℚ)
      structuralChanges := lineChangePercentage * mkRat 1 2 }
  let significanceScore := calculateSignificanceScore components
  .ok
    { wordsAdded := (wordsNew.dedup.filter fun w => decide (w ∉ wordsOld)).length
      wordsRemoved := (wordsOld.dedup.filter fun w => decide (w ∉ wordsNew)).length
      totalWordsOld := totalWordsOld
      totalWordsNew := totalWordsNew
      similarityScore := charSimilarity * 100
      changePercentage := (1 - charSimilarity) * 100
      linesAdded := newLines.length - oldLines.length
      linesRemoved := oldLines.length - newLines.length
      wordChangePercentage := wordChangePercentage
      lineChangePercentage := lineChangePercentage
      characterSimilarity := charSimilarity * 100
      structuralChangeCount := lineChanges
      wordChangeCount := wordChanges
      significanceScore := significanceScore
      keywordChanges := ks.1
      keywordDetails := ks.2
      significanceComponents := components
      contentHashOld := if oldText ≠ "" then some (contentHashFn oldText) else none
      contentHashNew := if newText ≠ "" then some (contentHashFn newText) else none
      checksumOld := if oldText ≠ "" then some (checksumFn oldText) else none
      checksumNew := if newText ≠ "" then some (checksumFn newText) else none }

/-- The dict returned by `DiffService.analyze_change_significance`. -/
structure DsAnalysis where
  store : Bool
  reason : String
  score : ℚ
  significant : Bool
  analysisType : String
  metricsData : Option ChangeMetrics
  contentHash : Option String
  checksum : Option String
  thresholdUsed : Option ℚ
deriving Repr, DecidableEq

/-- `DiffService.analyze_change_significance` (the caller-facing default
for `min_threshold` is `0.05`). -/
def dsAnalyzeChangeSignificance (contentHashFn checksumFn : String → String)
    (oldText newText : String) (minThreshold : ℚ) : Except PyError DsAnalysis :=
  if oldText = "" ∧ newText ≠ "" then
    .ok { store := true, reason := "First version", score := 1, significant := true,
          analysisType := "first_version", metricsData := none, contentHash := none,
          checksum := none, thresholdUsed := none }
  else if oldText = newText then
    .ok { store := false, reason := "Identical content", score := 0, significant := false,
          analysisType := "identical", metricsData := none, contentHash := none,
          checksum := none, thresholdUsed := none }
  else if checksumFn oldText = checksumFn newText then
    .ok { store := false, reason := "Identical checksum", score := 0, significant := false,
          analysisType := "identical_checksum", metricsData := none, contentHash := none,
          checksum := none, thresholdUsed := none }
  else do
    let metrics ← calculateChangeMetrics contentHashFn checksumFn oldText newText
    let significanceScore := metrics.significanceScore
    let significant := decide (minThreshold ≤ significanceScore)
    let reasons : List String :=
      [if mkRat 7 10 ≤ significanceScore then "Major content restructuring"
       else if mkRat 5 10 ≤ significanceScore then "Substantial content changes"
       else if mkRat 3 10 ≤ significanceScore then "Moderate content updates"
       else if mkRat 1 10 ≤ significanceScore then "Minor content tweaks"
       else "Insignificant changes"]
    let reasons := reasons ++
      (if 0 < metrics.keywordChanges then
        [natStr metrics.keywordChanges ++ " technical keywords changed"] else [])
    let reasons := reasons ++
      (if (20 : ℚ) < metrics.wordChangePercentage then
        ["High word change (" ++ formatFixed1 metrics.wordChangePercentage ++ "%)"]
       else if (10 : ℚ) < metrics.wordChangePercentage then
        ["Moderate word change (" ++ formatFixed1 metrics.wordChangePercentage ++ "%)"]
       else [])
    .ok { store := significant
          reason := String.intercalate "; " reasons
          score := significanceScore
          significant := significant
          analysisType := "detailed_analysis"
          metricsData := some metrics
          contentHash := some (contentHashFn newText)
          checksum := some (checksumFn newText)
          thresholdUsed := some minThreshold }

/-! ## `VersioningService` (`backend/app/services/versioning_service.py`) -/

/-- The versioning configuration after `default_config.update(config)`:
the defaults are `min_change_threshold=0.05`,
`min_semantic_difference=0.1`, `require_significant_keywords=True`,
`check_structural_changes=True`, `max_versions_kept=50`. -/
structure VsConfig where
  minChangeThreshold : ℚ
  minSemanticDifference : ℚ
  requireSignificantKeywords : Bool
  checkStructuralChanges : Bool
  maxVersionsKept : ℕ
deriving Repr, DecidableEq

/-- The default configuration of
`VersioningService.analyze_change_significance`. -/
def defaultVsConfig : VsConfig :=
  { minChangeThreshold := mkRat 1 20
    minSemanticDifference := mkRat 1 10
    requireSignificantKeywords := true
    checkStructuralChanges := true
    maxVersionsKept := 50 }

/-- The case-dependent `"metrics"` entry of the analysis dict. -/
inductive VsMetricsInfo where
  /-- case 1: the dict with the single key `first_version = True` -/
  | firstVersion
  /-- case 2: the dict with the single key `similarity_score = 100.0` -/
  | identicalSimilarity
  /-- case 3: the dict with the single key `identical_checksum = True` -/
  | identicalChecksum
  /-- case 4: the full metrics dict -/
  | detailed (m : ChangeMetrics)
deriving Repr, DecidableEq

/-- The case-4 `"analysis"` dict (keys `character_similarity`,
`word_change_ratio`, `line_change_ratio`,
`significant_keywords_found`). -/
structure VsAnalysisDetails where
  characterSimilarity : ℚ
  wordChangePart : ℚ
  lineChangePart : ℚ
  significantKeywordsFound : ℕ
deriving Repr, DecidableEq

/-- The case-dependent `"analysis"` entry of the analysis dict. -/
inductive VsAnalysisInfo where
  /-- case 1: `is_first_version = True` -/
  | isFirstVersion
  /-- case 2: `identical = True` -/
  | identical
  /-- case 3: `checksum_match = True` -/
  | checksumMatch
  /-- case 4 -/
  | detailed (d : VsAnalysisDetails)
deriving Repr, DecidableEq

/-- The dict returned by
`VersioningService.analyze_change_significance`. -/
structure VsAnalysis where
  store : Bool
  reason : String
  score : ℚ
  contentHash : String
  checksum : String
  metricsInfo : VsMetricsInfo
  analysisInfo : VsAnalysisInfo
deriving Repr, DecidableEq

/-- `VersioningService.analyze_change_significance`.  `contentHashFn`
models `calculate_content_hash` (`hashlib.sha256`), `checksumFn` models
`calculate_quick_checksum` (`hashlib.md5`); `cfg` is the configuration
after merging caller overrides into the defaults. -/
def vsAnalyzeChangeSignificance (contentHashFn checksumFn : String → String)
    (cfg : VsConfig) (oldText newText : String) : Except PyError VsAnalysis :=
  -- Case 1: first version
  if oldText = "" ∧ newText ≠ "" then
    .ok { store := true, reason := "First version", score := 1,
          contentHash := contentHashFn newText, checksum := checksumFn newText,
          metricsInfo := .firstVersion, analysisInfo := .isFirstVersion }
  -- Case 2: identical content
  else if oldText = newText then
    .ok { store := false, reason := "Identical content", score := 0,
          contentHash := contentHashFn newText, checksum := checksumFn newText,
          metricsInfo := .identicalSimilarity, analysisInfo := .identical }
  -- Case 3: quick checksum comparison
  else if checksumFn oldText = checksumFn newText then
    .ok { store := false, reason := "Identical checksum", score := 0,
          contentHash := contentHashFn newText, checksum := checksumFn newText,
          metricsInfo := .identicalChecksum, analysisInfo := .checksumMatch }
  -- Case 4: detailed metrics
  else do
    let metrics ← calculateChangeMetrics contentHashFn checksumFn oldText newText
    let score : ℚ := 0
    let reasons : List String := []
    -- 1. character change (40% weight)
    let charScore := min (metrics.changePercentage / 100) 1
    let score := score + charScore * mkRat 4 10
    let reasons := reasons ++
      (if cfg.minChangeThreshold * 100 ≤ metrics.changePercentage then
        ["Text changed by " ++ formatFixed1 metrics.changePercentage ++ "%"] else [])
    -- 2. word change (30% weight)
    let totalWords := max metrics.totalWordsOld (max metrics.totalWordsNew 1)
    let wordChange : ℚ := ((metrics.wordsAdded + metrics.wordsRemoved : ℕ) : ℚ) / (totalWords : ℚ)
    let wordScore := min wordChange 1
    let score := score + wordScore * mkRat 3 10
    let reasons := reasons ++
      (if cfg.minChangeThreshold ≤ wordChange then
        [formatPercent1 wordChange ++ " of words changed"] else [])
    -- 3. structural changes (20% weight)
    let oldLinesCount := max (pySplitlines oldText).length 1
    let lineChange : ℚ :=
      (((metrics.linesAdded : ℤ) - (metrics.linesRemoved : ℤ)).natAbs : ℚ) / (oldLinesCount : ℚ)
    let score := if cfg.checkStructuralChanges then score + min lineChange 1 * mkRat 2 10 else score
    let reasons := reasons ++
      (if cfg.checkStructuralChanges ∧ mkRat 1 10 ≤ lineChange then
        ["Line count changed by " ++ formatPercent1 lineChange] else [])
    -- 4. important keywords (10% weight)
    let kw := techKeywords.foldl
      (fun (acc : ℕ × List String) k =>
        if strContains (pyLower oldText) k ≠ strContains (pyLower newText) k then
          (acc.1 + 1,
           acc.2 ++ ["Keyword " ++ sglQuote ++ k ++ sglQuote ++ " appeared/disappeared"])
        else acc)
      (0, [])
    let score := if cfg.requireSignificantKeywords then
        score + min ((kw.1 : ℚ) * mkRat 1 20) (mkRat 1 10) else score
    let reasons := reasons ++ (if cfg.requireSignificantKeywords then kw.2 else [])
    -- decision
    let storeVersion := decide (cfg.minChangeThreshold ≤ score)
    .ok { store := storeVersion
          reason := if reasons ≠ [] then String.intercalate "; " reasons else "Minor changes"
          score := pyRound score 3
          contentHash := contentHashFn newText
          checksum := checksumFn newText
          metricsInfo := .detailed metrics
          analysisInfo := .detailed
            { characterSimilarity := metrics.similarityScore
              wordChangePart := wordChange
              lineChangePart := if cfg.checkStructuralChanges then lineChange else 0
              significantKeywordsFound := if cfg.requireSignificantKeywords then kw.1 else 0 } }

/-- A stored version as `prune_old_versions` sees it: its id and its
`change_significance_score` (versions missing the field read as 0 via
`.get`). -/
structure PruneVersion where
  vid : ℕ
  score : ℚ
deriving Repr, DecidableEq

/-- The pruning configuration after `default_config.update(config)`:
defaults `max_versions_kept=50`, `keep_significant_threshold=0.3`,
`keep_time_based=True`, `keep_oldest=True`. -/
structure PruneConfig where
  maxVersionsKept : ℕ
  keepSignificantThreshold : ℚ
  keepTimeBased : Bool
  keepOldest : Bool
deriving Repr, DecidableEq

/-- The default pruning configuration with a given retention cap. -/
def defaultPruneConfig (maxKept : ℕ) : PruneConfig :=
  { maxVersionsKept := maxKept
    keepSignificantThreshold := mkRat 3 10
    keepTimeBased := true
    keepOldest := true }

/-- `if version_id not in versions_to_keep: versions_to_keep.append(...)` -/
def addIfNew (acc : List ℕ) (x : ℕ) : List ℕ :=
  if x ∈ acc then acc else acc ++ [x]

/-- "Always keep the oldest version" step of `prune_old_versions`
(`all_versions` is sorted newest first, so the oldest is the last). -/
def keepOldestIds (cfg : PruneConfig) (vs : List PruneVersion) : List ℕ :=
  if cfg.keepOldest then
    match vs.getLast? with
    | some v => [v.vid]
    | none => []
  else []

/-- "Keep versions with high significance scores" step. -/
def keepSignificantIds (cfg : PruneConfig) (vs : List PruneVersion) (acc : List ℕ) : List ℕ :=
  if 0 < cfg.keepSignificantThreshold then
    vs.foldl
      (fun acc v =>
        if cfg.keepSignificantThreshold ≤ v.score then addIfNew acc v.vid else acc)
      acc
  else acc

/-- "Keep versions based on time distribution" step: walk the timeline at
stride `step`, stopping once the cap is reached. -/
def keepTimeBasedIds (cfg : PruneConfig) (vs : List PruneVersion) (acc : List ℕ) : List ℕ :=
  if cfg.keepTimeBased ∧ acc.length < cfg.maxVersionsKept then
    let step := max 1 (vs.length / (cfg.maxVersionsKept - acc.length))
    ((List.range vs.length).filter fun i => i % step = 0).foldl
      (fun acc i =>
        if cfg.maxVersionsKept ≤ acc.length then acc
        else
          match vs.get? i with
          | some v => addIfNew acc v.vid
          | none => acc)
      acc
  else acc

/-- The keep-set of `prune_old_versions`, truncated to the cap. -/
def pruneKeepIds (cfg : PruneConfig) (vs : List PruneVersion) : List ℕ :=
  (keepTimeBasedIds cfg vs (keepSignificantIds cfg vs (keepOldestIds cfg vs))).take
    cfg.maxVersionsKept

/-- `VersioningService.prune_old_versions`, expressed as the list of
surviving versions of the page (`vs` is the page's versions sorted
newest first; every version not in the keep-set is deleted).  When the
page has at most `max_versions_kept` versions the function returns `0`
before computing a keep-set and nothing is deleted. -/
def pruneOldVersions (cfg : PruneConfig) (vs : List PruneVersion) : List PruneVersion :=
  if vs.length ≤ cfg.maxVersionsKept then vs
  else vs.filter fun v => decide (v.vid ∈ pruneKeepIds cfg vs)

/-! ## Scheduler (`backend/app/scheduler.py`) -/

/-- The subset of a page's `versioning_config` dict read by the
notification decision, plus the stored-but-unread
`notification_threshold` key (`none` models an absent key). -/
structure SchedulerPageConfig where
  minChangeThreshold : Option ℚ
  notificationThreshold : Option ℚ
deriving Repr, DecidableEq

/-- The notification guard of
`MonitoringScheduler._check_single_page_smart` (scheduler.py lines
725-727): `self.email_enabled and change_percentage > 0 and
new_version.get("change_significance_score", 0) >=
page_config.get("min_change_threshold", 0.05)`. -/
def shouldSendChangeNotification (emailEnabled : Bool) (changePercentage : ℚ)
    (changeSignificanceScore : Option ℚ) (pageConfig : SchedulerPageConfig) : Bool :=
  emailEnabled && decide (0 < changePercentage) &&
    decide (pageConfig.minChangeThreshold.getD (mkRat 1 20) ≤ changeSignificanceScore.getD 0)

/-- `MonitoringScheduler._calculate_change_percentage` (scheduler.py
lines 835-850). -/
def calculateChangePercentage (oldContent newContent : String) : ℚ :=
  if oldContent = "" then 100
  else if newContent = "" then 0
  else pyRound ((1 - seqSimilarity oldContent.data newContent.data) * 100) 1

/-! ## `create_page_version` (`backend/app/database.py`) -/

/-- A stored version document as `create_page_version` and
`get_content_duplicate` see it. -/
structure StoredPageVersion where
  pageId : ℕ
  textContent : String
  contentHash : String
  checksum : String
  significanceScore : ℚ
deriving Repr, DecidableEq

/-- `get_content_duplicate`: `find_one` on
`{page_id, content_hash}` (first matching stored document). -/
def getContentDuplicate (db : List StoredPageVersion) (pageId : ℕ)
    (contentHash : String) : Option StoredPageVersion :=
  db.find? fun v => decide (v.pageId = pageId) && decide (v.contentHash = contentHash)

/-- `create_page_version`: compute the content hash, return the existing
document unchanged when a duplicate exists, otherwise insert.  Returns
the database after the call and the returned version document. -/
def createPageVersion (contentHashFn checksumFn : String → String)
    (db : List StoredPageVersion) (pageId : ℕ) (textContent : String)
    (significanceScore : ℚ) : List StoredPageVersion × StoredPageVersion :=
  let contentHash := contentHashFn textContent
  match getContentDuplicate db pageId contentHash with
  | some dup => (db, dup)
  | none =>
      let v : StoredPageVersion :=
        { pageId := pageId, textContent := textContent, contentHash := contentHash,
          checksum := checksumFn textContent, significanceScore := significanceScore }
      (db ++ [v], v)

/-- No two stored versions of the same page share a content hash. -/
def PageHashInvariant (db : List StoredPageVersion) : Prop :=
  db.Pairwise fun u v => u.pageId = v.pageId → u.contentHash ≠ v.contentHash

/-! ## Concrete inputs used by the claims -/

/-- Old text of spec scenario 3. -/
def scenarioOldText : String := "critical security patch released"

/-- New text of spec scenario 3. -/
def scenarioNewText : String := "routine update released"

/-- Spec scenario 4: 60 stored versions (newest first), five of them
scoring `0.4 ≥ 0.3`, the oldest (id 59) scoring 0. -/
def c2ScenarioVersions : List PruneVersion :=
  (List.range 60).map fun i => ⟨i, if i ∈ [5, 15, 25, 35, 45] then mkRat 2 5 else 0⟩

/-- A 3-version page (newest first) whose two newest versions are
significant and whose oldest is not, with cap 2: the keep-list
`[oldest, sig₀, sig₁]` is truncated to the cap, evicting `sig₁`. -/
def c2CexVersions : List PruneVersion :=
  [⟨0, mkRat 2 5⟩, ⟨1, mkRat 2 5⟩, ⟨2, 0⟩]

/-! ## Theorems -/

/-- C5 (confirmed): for every non-empty new text, analyzing significance
with an empty old text yields `store = true`, `score = 1.0` and reason
"First version", in both `VersioningService.analyze_change_significance`
and `DiffService.analyze_change_significance`. -/
theorem claim_C5_first_version (contentHashFn checksumFn : String → String)
    (cfg : VsConfig) (minThreshold : ℚ) (newText : String) (h : newText ≠ "") :
    (∃ r, vsAnalyzeChangeSignificance contentHashFn checksumFn cfg "" newText = .ok r ∧
      r.store = true ∧ r.score = 1 ∧ r.reason = "First version") ∧
    (∃ r, dsAnalyzeChangeSignificance contentHashFn checksumFn "" newText minThreshold = .ok r ∧
      r.store = true ∧ r.score = 1 ∧ r.reason = "First version") := by
  have h1 : vsAnalyzeChangeSignificance contentHashFn checksumFn cfg "" newText =
      .ok { store := true, reason := "First version", score := 1,
            contentHash := contentHashFn newText, checksum := checksumFn newText,
            metricsInfo := .firstVersion, analysisInfo := .isFirstVersion } := by
    unfold vsAnalyzeChangeSignificance
    rw [if_pos ⟨rfl, h⟩]
  have h2 : dsAnalyzeChangeSignificance contentHashFn checksumFn "" newText minThreshold =
      .ok { store := true, reason := "First version", score := 1, significant := true,
            analysisType := "first_version", metricsData := none, contentHash := none,
            checksum := none, thresholdUsed := none } := by
    unfold dsAnalyzeChangeSignificance
    rw [if_pos ⟨rfl, h⟩]
  exact ⟨⟨_, h1, rfl, rfl, rfl⟩, ⟨_, h2, rfl, rfl, rfl⟩⟩

/-- Witness for C5 at `newText = "Hello world"`. -/
theorem claim_C5_first_version_witness :
    (∃ r, vsAnalyzeChangeSignificance (fun s => s) (fun s => s) defaultVsConfig
        "" "Hello world" = .ok r ∧
      r.store = true ∧ r.score = 1 ∧ r.reason = "First version") ∧
    (∃ r, dsAnalyzeChangeSignificance (fun s => s) (fun s => s)
        "" "Hello world" (mkRat 1 20) = .ok r ∧
      r.store = true ∧ r.score = 1 ∧ r.reason = "First version") :=
  claim_C5_first_version (fun s => s) (fun s => s) defaultVsConfig (mkRat 1 20)
    "Hello world" (by decide)

/-- C6 (confirmed): for every text `t`, analyzing `t` against itself
yields `store = false` and `score = 0.0`, in both analyzers (the empty
text falls through the first-version branch into the identical-content
branch because Python's `new_text` truthiness fails). -/
theorem claim_C6_identical_input (contentHashFn checksumFn : String → String)
    (cfg : VsConfig) (minThreshold : ℚ) (t : String) :
    (∃ r, vsAnalyzeChangeSignificance contentHashFn checksumFn cfg t t = .ok r ∧
      r.store = false ∧ r.score = 0) ∧
    (∃ r, dsAnalyzeChangeSignificance contentHashFn checksumFn t t minThreshold = .ok r ∧
      r.store = false ∧ r.score = 0) := by
  have hfirst : ¬ (t = "" ∧ t ≠ "") := by rintro ⟨h1, h2⟩; exact h2 h1
  have h1 : vsAnalyzeChangeSignificance contentHashFn checksumFn cfg t t =
      .ok { store := false, reason := "Identical content", score := 0,
            contentHash := contentHashFn t, checksum := checksumFn t,
            metricsInfo := .identicalSimilarity, analysisInfo := .identical } := by
    unfold vsAnalyzeChangeSignificance
    rw [if_neg hfirst, if_pos rfl]
  have h2 : dsAnalyzeChangeSignificance contentHashFn checksumFn t t minThreshold =
      .ok { store := false, reason := "Identical content", score := 0, significant := false,
            analysisType := "identical", metricsData := none, contentHash := none,
            checksum := none, thresholdUsed := none } := by
    unfold dsAnalyzeChangeSignificance
    rw [if_neg hfirst, if_pos rfl]
  exact ⟨⟨_, h1, rfl, rfl⟩, ⟨_, h2, rfl, rfl⟩⟩

/-- C4 counterexample: under a checksum collision (equal fast checksums,
different strong hashes, different texts) the analysis does short-circuit
to the identical-checksum result — it is treated as identical, the strong
hash is never consulted — refuting the claimed authority of the strong
hash over the short-circuit. -/
theorem claim_C4_counterexample :
    (fun _ : String => "c") "a" = (fun _ : String => "c") "b" ∧
    (fun s : String => s) "a" ≠ (fun s : String => s) "b" ∧
    ("a" : String) ≠ "b" ∧
    vsAnalyzeChangeSignificance (fun s => s) (fun _ => "c") defaultVsConfig "a" "b" =
      .ok { store := false, reason := "Identical checksum", score := 0,
            contentHash := "b", checksum := "c",
            metricsInfo := .identicalChecksum, analysisInfo := .checksumMatch } := by
  exact ⟨rfl, by decide, by decide, rfl⟩

/-- C4 (corrected): whenever the fast checksums of two distinct texts
agree (and the old text is non-empty, so the first-version branch does
not fire), `VersioningService.analyze_change_significance` returns the
identical-checksum short-circuit result: `store = false`, `score = 0`,
reason "Identical checksum" — for every strong-hash function, which is
therefore never consulted for this decision. -/
theorem claim_C4_checksum_shortcircuit (contentHashFn checksumFn : String → String)
    (cfg : VsConfig) (oldText newText : String) (h0 : oldText ≠ "")
    (h1 : oldText ≠ newText) (h2 : checksumFn oldText = checksumFn newText) :
    vsAnalyzeChangeSignificance contentHashFn checksumFn cfg oldText newText =
      .ok { store := false, reason := "Identical checksum", score := 0,
            contentHash := contentHashFn newText, checksum := checksumFn newText,
            metricsInfo := .identicalChecksum, analysisInfo := .checksumMatch } := by
  unfold vsAnalyzeChangeSignificance
  rw [if_neg (by rintro ⟨ha, _⟩; exact h0 ha), if_neg h1, if_pos h2]

/-- Witness for C4's corrected statement at a concrete collision. -/
theorem claim_C4_checksum_shortcircuit_witness :
    vsAnalyzeChangeSignificance (fun s => s) (fun _ => "mm") defaultVsConfig "x" "y" =
      .ok { store := false, reason := "Identical checksum", score := 0,
            contentHash := "y", checksum := "mm",
            metricsInfo := .identicalChecksum, analysisInfo := .checksumMatch } :=
  claim_C4_checksum_shortcircuit (fun s => s) (fun _ => "mm") defaultVsConfig "x" "y"
    (by decide) (by decide) rfl

/-- C1 (code bug): on spec scenario 3 (`"critical security patch
released"` → `"routine update released"`), whenever the fast checksums of
the two texts differ (as MD5's do),
`VersioningService.analyze_change_significance` does not return at all:
`calculate_change_metrics` raises `NameError` because the generator
expression summing word-level changes names the unbound variable `size`
(diff_service.py line 354) and the word diff of the two texts has a
non-`equal` opcode. -/
theorem claim_C1_scenario3_raises (contentHashFn checksumFn : String → String)
    (cfg : VsConfig) (h : checksumFn scenarioOldText ≠ checksumFn scenarioNewText) :
    vsAnalyzeChangeSignificance contentHashFn checksumFn cfg scenarioOldText scenarioNewText =
      .error .nameErrorSize := by
  unfold vsAnalyzeChangeSignificance
  rw [if_neg (by decide), if_neg (by decide), if_neg h]
  rfl

/-- Witness for C1 with the identity function as checksum (the two texts
differ, so any injective checksum separates them). -/
theorem claim_C1_scenario3_raises_witness :
    vsAnalyzeChangeSignificance (fun s => s) (fun s => s) defaultVsConfig
      scenarioOldText scenarioNewText = .error .nameErrorSize :=
  claim_C1_scenario3_raises (fun s => s) (fun s => s) defaultVsConfig (by decide)

/-- C3 (code bug): evaluation of the scheduler's notification guard at a
version scoring `0.1` on a page whose config carries
`min_change_threshold = 0.05` and `notification_threshold = 0.3`: the
notifier fires although the score is below the notification threshold,
and the guard is insensitive to the `notification_threshold` field
altogether.  The guard actually used is `email_enabled ∧
change_percentage > 0 ∧ score ≥ min_change_threshold`. -/
theorem claim_C3_notification_ignores_threshold :
    shouldSendChangeNotification true 50 (some (mkRat 1 10))
      { minChangeThreshold := some (mkRat 1 20),
        notificationThreshold := some (mkRat 3 10) } = true ∧
    mkRat 1 10 < mkRat 3 10 ∧
    (∀ (emailEnabled : Bool) (changePercentage : ℚ) (scoreOpt minThr nt nt' : Option ℚ),
      shouldSendChangeNotification emailEnabled changePercentage
        (scoreOpt.getD 0) ⟨minThr.getD (mkRat 1 20), nt⟩ =
      shouldSendChangeNotification emailEnabled changePercentage
        (scoreOpt.getD 0) ⟨minThr.getD (mkRat 1 20), nt'⟩) := by
  refine ⟨by decide, by decide, ?_⟩
  intro emailEnabled changePercentage scoreOpt minThr nt nt'
  rfl

/-- C9 (confirmed): `_calculate_change_percentage` returns `100.0`
whenever the old content is empty, and `0.0` whenever the old content is
non-empty and the new content is empty. -/
theorem claim_C9_change_percentage_edges (oldContent newContent : String) :
    (oldContent = "" → calculateChangePercentage oldContent newContent = 100) ∧
    (oldContent ≠ "" → newContent = "" → calculateChangePercentage oldContent newContent = 0) := by
  constructor
  · intro h
    subst h
    rfl
  · intro h1 h2
    subst h2
    unfold calculateChangePercentage
    rw [if_neg h1, if_pos rfl]

/-- Witness for C9 on a page whose content appears and then disappears. -/
theorem claim_C9_change_percentage_edges_witness :
    calculateChangePercentage "" "abc" = 100 ∧ calculateChangePercentage "abc" "" = 0 :=
  ⟨(claim_C9_change_percentage_edges "" "abc").1 rfl,
   (claim_C9_change_percentage_edges "abc" "").2 (by decide) rfl⟩

/-- C10 (confirmed): `create_page_version` preserves the per-page
hash-uniqueness invariant, and when a version of the page with the same
content hash already exists it inserts nothing and returns that existing
version. -/
theorem claim_C10_duplicate_suppression (contentHashFn checksumFn : String → String)
    (db : List StoredPageVersion) (pageId : ℕ) (textContent : String) (score : ℚ)
    (hinv : PageHashInvariant db) :
    PageHashInvariant (createPageVersion contentHashFn checksumFn db pageId textContent score).1 ∧
    ((∃ v ∈ db, v.pageId = pageId ∧ v.contentHash = contentHashFn textContent) →
      (createPageVersion contentHashFn checksumFn db pageId textContent score).1 = db ∧
      (createPageVersion contentHashFn checksumFn db pageId textContent score).2 ∈ db) := by
  cases hfd : getContentDuplicate db pageId (contentHashFn textContent) with
  | some dup =>
      have hmem : dup ∈ db := List.mem_of_find?_eq_some hfd
      constructor
      · simpa [createPageVersion, hfd] using hinv
      · intro _
        constructor
        · simp [createPageVersion, hfd]
        · simpa [createPageVersion, hfd] using hmem
  | none =>
      have hnone := List.find?_eq_none.mp hfd
      constructor
      · have : PageHashInvariant (db ++
          [{ pageId := pageId, textContent := textContent,
             contentHash := contentHashFn textContent,
             checksum := checksumFn textContent, significanceScore := score }]) := by
          refine List.pairwise_append.mpr ⟨hinv, List.pairwise_singleton _ _, ?_⟩
          intro u hu w hw
          rcases List.mem_singleton.mp hw with rfl
          intro hpid
          have := hnone u hu
          simp only [Bool.and_eq_true, decide_eq_true_eq, not_and] at this
          intro hhash
          exact this hpid hhash
        simpa [createPageVersion, hfd] using this
      · rintro ⟨v, hv, hpid, hhash⟩
        exfalso
        have := hnone v hv
        simp only [Bool.and_eq_true, decide_eq_true_eq, not_and] at this
        exact this hpid hhash

/-- Witness for C10 on an initially empty store. -/
theorem claim_C10_duplicate_suppression_witness :
    PageHashInvariant (createPageVersion (fun s => s) (fun s => s) [] 0 "hello" 1).1 ∧
    ((∃ v ∈ ([] : List StoredPageVersion), v.pageId = 0 ∧ v.contentHash = (fun s : String => s) "hello") →
      (createPageVersion (fun s => s) (fun s => s) [] 0 "hello" 1).1 = [] ∧
      (createPageVersion (fun s => s) (fun s => s) [] 0 "hello" 1).2 ∈ ([] : List StoredPageVersion)) :=
  claim_C10_duplicate_suppression (fun s => s) (fun s => s) [] 0 "hello" 1 List.Pairwise.nil

/-- Bounds for a clamped-and-weighted sub-signal `min x K / K * w`. -/
theorem clampedTermBounds (x K w : ℚ) (hx : 0 ≤ x) (hK : 0 < K) (hw : 0 ≤ w) :
    0 ≤ min x K / K * w ∧ min x K / K * w ≤ w := by
  have h1 : 0 ≤ min x K := le_min hx hK.le
  have h2 : min x K / K ≤ 1 := by
    rw [div_le_one hK]
    exact min_le_right _ _
  have h3 : 0 ≤ min x K / K := div_nonneg h1 hK.le
  refine ⟨mul_nonneg h3 hw, ?_⟩
  calc min x K / K * w ≤ 1 * w := mul_le_mul_of_nonneg_right h2 hw
    _ = w := one_mul w

/-- Bounds for the character-dissimilarity sub-signal
`(100 - min sim 100) / 100 * w`. -/
theorem charTermBounds (cs w : ℚ) (hcs : 0 ≤ cs) (hw : 0 ≤ w) :
    0 ≤ (100 - min cs 100) / 100 * w ∧ (100 - min cs 100) / 100 * w ≤ w := by
  have h1 : 0 ≤ 100 - min cs 100 := by
    have := min_le_right cs (100 : ℚ)
    linarith
  have h2 : 100 - min cs 100 ≤ 100 := by
    have : (0 : ℚ) ≤ min cs 100 := le_min hcs (by norm_num)
    linarith
  have h3 : (100 - min cs 100) / 100 ≤ 1 := by
    rw [div_le_one (by norm_num : (0 : ℚ) < 100)]
    exact h2
  have h4 : 0 ≤ (100 - min cs 100) / 100 := div_nonneg h1 (by norm_num)
  refine ⟨mul_nonneg h4 hw, ?_⟩
  calc (100 - min cs 100) / 100 * w ≤ 1 * w := mul_le_mul_of_nonneg_right h3 hw
    _ = w := one_mul w

/-- C8 (confirmed): in `_calculate_significance_score`, each sub-signal
(character dissimilarity, word-change, line-change, capped keyword
contribution, structural contribution) is clamped to `[0, weight]`
before being summed, and the final significance score lies in `[0, 1]`
for every nonnegative metrics combination — including arbitrarily large
percentages such as 500% line growth. -/
theorem claim_C8_scorer_clamped (c : SignificanceComponents)
    (h1 : 0 ≤ c.characterSimilarity) (h2 : 0 ≤ c.wordChangePart)
    (h3 : 0 ≤ c.lineChangePart) (h4 : 0 ≤ c.keywordChanges)
    (h5 : 0 ≤ c.structuralChanges) :
    (0 ≤ (100 - min c.characterSimilarity 100) / 100 * mkRat 3 10 ∧
      (100 - min c.characterSimilarity 100) / 100 * mkRat 3 10 ≤ mkRat 3 10) ∧
    (0 ≤ min c.wordChangePart 100 / 100 * mkRat 4 10 ∧
      min c.wordChangePart 100 / 100 * mkRat 4 10 ≤ mkRat 4 10) ∧
    (0 ≤ min c.lineChangePart 100 / 100 * mkRat 2 10 ∧
      min c.lineChangePart 100 / 100 * mkRat 2 10 ≤ mkRat 2 10) ∧
    (0 ≤ min c.keywordChanges 10 / 10 * mkRat 1 10 ∧
      min c.keywordChanges 10 / 10 * mkRat 1 10 ≤ mkRat 1 10) ∧
    (0 ≤ min c.structuralChanges 100 / 100 * mkRat 1 10 ∧
      min c.structuralChanges 100 / 100 * mkRat 1 10 ≤ mkRat 1 10) ∧
    0 ≤ calculateSignificanceScore c ∧ calculateSignificanceScore c ≤ 1 := by
  have e3 : (mkRat 3 10 : ℚ) = 3 / 10 := by
    rw [Rat.mkRat_eq_divInt, Rat.divInt_eq_div]; norm_num
  have e4 : (mkRat 4 10 : ℚ) = 4 / 10 := by
    rw [Rat.mkRat_eq_divInt, Rat.divInt_eq_div]; norm_num
  have e2 : (mkRat 2 10 : ℚ) = 2 / 10 := by
    rw [Rat.mkRat_eq_divInt, Rat.divInt_eq_div]; norm_num
  have e1 : (mkRat 1 10 : ℚ) = 1 / 10 := by
    rw [Rat.mkRat_eq_divInt, Rat.divInt_eq_div]; norm_num
  have p1 := charTermBounds c.characterSimilarity (mkRat 3 10) h1 (by rw [e3]; norm_num)
  have p2 := clampedTermBounds c.wordChangePart 100 (mkRat 4 10) h2 (by norm_num)
    (by rw [e4]; norm_num)
  have p3 := clampedTermBounds c.lineChangePart 100 (mkRat 2 10) h3 (by norm_num)
    (by rw [e2]; norm_num)
  have p4 := clampedTermBounds c.keywordChanges 10 (mkRat 1 10) h4 (by norm_num)
    (by rw [e1]; norm_num)
  have p5 := clampedTermBounds c.structuralChanges 100 (mkRat 1 10) h5 (by norm_num)
    (by rw [e1]; norm_num)
  have hdef : calculateSignificanceScore c =
      min (0 + (100 - min c.characterSimilarity 100) / 100 * mkRat 3 10 +
        min c.wordChangePart 100 / 100 * mkRat 4 10 +
        min c.lineChangePart 100 / 100 * mkRat 2 10 +
        min c.keywordChanges 10 / 10 * mkRat 1 10 +
        min c.structuralChanges 100 / 100 * mkRat 1 10) 1 := rfl
  refine ⟨p1, p2, p3, p4, p5, ?_, ?_⟩
  · rw [hdef]
    refine le_min ?_ zero_le_one
    have := p1.1; have := p2.1; have := p3.1; have := p4.1; have := p5.1
    linarith
  · rw [hdef]
    exact min_le_right _ _

/-- Witness for C8 with a 500% line-change metric. -/
theorem claim_C8_scorer_clamped_witness :
    (0 ≤ (100 - min (50 : ℚ) 100) / 100 * mkRat 3 10 ∧
      (100 - min (50 : ℚ) 100) / 100 * mkRat 3 10 ≤ mkRat 3 10) ∧
    (0 ≤ min (500 : ℚ) 100 / 100 * mkRat 4 10 ∧
      min (500 : ℚ) 100 / 100 * mkRat 4 10 ≤ mkRat 4 10) ∧
    (0 ≤ min (500 : ℚ) 100 / 100 * mkRat 2 10 ∧
      min (500 : ℚ) 100 / 100 * mkRat 2 10 ≤ mkRat 2 10) ∧
    (0 ≤ min (3 : ℚ) 10 / 10 * mkRat 1 10 ∧
      min (3 : ℚ) 10 / 10 * mkRat 1 10 ≤ mkRat 1 10) ∧
    (0 ≤ min (500 : ℚ) 100 / 100 * mkRat 1 10 ∧
      min (500 : ℚ) 100 / 100 * mkRat 1 10 ≤ mkRat 1 10) ∧
    0 ≤ calculateSignificanceScore ⟨50, 500, 500, 3, 500⟩ ∧
    calculateSignificanceScore ⟨50, 500, 500, 3, 500⟩ ≤ 1 :=
  claim_C8_scorer_clamped ⟨50, 500, 500, 3, 500⟩
    (by show (0 : ℚ) ≤ 50; norm_num) (by show (0 : ℚ) ≤ 500; norm_num)
    (by show (0 : ℚ) ≤ 500; norm_num) (by show (0 : ℚ) ≤ 3; norm_num)
    (by show (0 : ℚ) ≤ 500; norm_num)

/-! ### Lemmas about the pruning keep-set -/

/-- Membership is preserved by `addIfNew`. -/
theorem mem_addIfNew_left {acc : List ℕ} {y : ℕ} (h : y ∈ acc) (x : ℕ) :
    y ∈ addIfNew acc x := by
  unfold addIfNew
  split
  · exact h
  · exact List.mem_append_left _ h

/-- The added id is a member of `addIfNew acc x`. -/
theorem mem_addIfNew_self (acc : List ℕ) (x : ℕ) : x ∈ addIfNew acc x := by
  unfold addIfNew
  split
  · assumption
  · exact List.mem_append_right _ (List.mem_singleton_self x)

/-- `addIfNew` preserves `Nodup`. -/
theorem addIfNew_nodup {acc : List ℕ} (h : acc.Nodup) (x : ℕ) :
    (addIfNew acc x).Nodup := by
  unfold addIfNew
  split
  · exact h
  · rename_i hx
    rw [List.nodup_append]
    exact ⟨h, List.nodup_singleton x, by simpa [List.disjoint_singleton] using hx⟩

/-- `addIfNew` only appends. -/
theorem addIfNew_eq_append (acc : List ℕ) (x : ℕ) :
    ∃ t, addIfNew acc x = acc ++ t := by
  unfold addIfNew
  split
  · exact ⟨[], (List.append_nil acc).symm⟩
  · exact ⟨[x], rfl⟩

/-- `addIfNew` grows the list by at most one element. -/
theorem addIfNew_length (acc : List ℕ) (x : ℕ) :
    (addIfNew acc x).length ≤ acc.length + 1 := by
  unfold addIfNew
  split
  · omega
  · simp

/-- Membership is preserved by the significant-versions fold. -/
theorem sigFold_mem_mono (thr : ℚ) (vs : List PruneVersion) :
    ∀ (acc : List ℕ) {y : ℕ}, y ∈ acc →
      y ∈ vs.foldl (fun acc u => if thr ≤ u.score then addIfNew acc u.vid else acc) acc := by
  induction vs with
  | nil => intro acc y h; exact h
  | cons a tl ih =>
      intro acc y h
      simp only [List.foldl_cons]
      apply ih
      split
      · exact mem_addIfNew_left h _
      · exact h

/-- Every significant version's id enters the significant-versions fold. -/
theorem sigFold_mem_of (thr : ℚ) (vs : List PruneVersion) :
    ∀ (acc : List ℕ) {v : PruneVersion}, v ∈ vs → thr ≤ v.score →
      v.vid ∈ vs.foldl (fun acc u => if thr ≤ u.score then addIfNew acc u.vid else acc) acc := by
  induction vs with
  | nil => intro acc v h; exact absurd h (List.not_mem_nil _)
  | cons a tl ih =>
      intro acc v hv hs
      simp only [List.foldl_cons]
      rcases List.mem_cons.mp hv with rfl | hmem
      · apply sigFold_mem_mono
        rw [if_pos hs]
        exact mem_addIfNew_self _ _
      · exact ih _ hmem hs

/-- The significant-versions fold preserves `Nodup`. -/
theorem sigFold_nodup (thr : ℚ) (vs : List PruneVersion) :
    ∀ (acc : List ℕ), acc.Nodup →
      (vs.foldl (fun acc u => if thr ≤ u.score then addIfNew acc u.vid else acc) acc).Nodup := by
  induction vs with
  | nil => intro acc h; exact h
  | cons a tl ih =>
      intro acc h
      simp only [List.foldl_cons]
      apply ih
      split
      · exact addIfNew_nodup h _
      · exact h

/-- The significant-versions fold only appends. -/
theorem sigFold_eq_append (thr : ℚ) (vs : List PruneVersion) :
    ∀ (acc : List ℕ),
      ∃ t, vs.foldl (fun acc u => if thr ≤ u.score then addIfNew acc u.vid else acc) acc =
        acc ++ t := by
  induction vs with
  | nil => intro acc; exact ⟨[], (List.append_nil acc).symm⟩
  | cons a tl ih =>
      intro acc
      simp only [List.foldl_cons]
      by_cases hs : thr ≤ a.score
      · rw [if_pos hs]
        obtain ⟨t1, ht1⟩ := addIfNew_eq_append acc a.vid
        obtain ⟨t2, ht2⟩ := ih (addIfNew acc a.vid)
        exact ⟨t1 ++ t2, by rw [ht2, ht1, List.append_assoc]⟩
      · rw [if_neg hs]
        exact ih acc

/-- The significant-versions fold adds at most one id per significant
version. -/
theorem sigFold_length (thr : ℚ) (vs : List PruneVersion) :
    ∀ (acc : List ℕ),
      (vs.foldl (fun acc u => if thr ≤ u.score then addIfNew acc u.vid else acc) acc).length ≤
        acc.length + (vs.filter fun u => decide (thr ≤ u.score)).length := by
  induction vs with
  | nil => intro acc; simp
  | cons a tl ih =>
      intro acc
      simp only [List.foldl_cons]
      by_cases hs : thr ≤ a.score
      · rw [if_pos hs]
        have h1 := ih (addIfNew acc a.vid)
        have h2 := addIfNew_length acc a.vid
        have h3 : ((a :: tl).filter fun u => decide (thr ≤ u.score)).length =
            (tl.filter fun u => decide (thr ≤ u.score)).length + 1 := by
          simp [List.filter_cons, hs]
        omega
      · rw [if_neg hs]
        have h1 := ih acc
        have h3 : ((a :: tl).filter fun u => decide (thr ≤ u.score)).length =
            (tl.filter fun u => decide (thr ≤ u.score)).length := by
          simp [List.filter_cons, hs]
        omega

/-- Membership is preserved by the time-distribution fold. -/
theorem tbFold_mem_mono (m : ℕ) (vs : List PruneVersion) (l : List ℕ) :
    ∀ (acc : List ℕ) {y : ℕ}, y ∈ acc →
      y ∈ l.foldl (fun acc i => if m ≤ acc.length then acc
        else match vs.get? i with | some v => addIfNew acc v.vid | none => acc) acc := by
  induction l with
  | nil => intro acc y h; exact h
  | cons i tl ih =>
      intro acc y h
      simp only [List.foldl_cons]
      apply ih
      split
      · exact h
      · cases vs.get? i with
        | some v => exact mem_addIfNew_left h _
        | none => exact h

/-- The time-distribution fold only appends. -/
theorem tbFold_eq_append (m : ℕ) (vs : List PruneVersion) (l : List ℕ) :
    ∀ (acc : List ℕ),
      ∃ t, l.foldl (fun acc i => if m ≤ acc.length then acc
        else match vs.get? i with | some v => addIfNew acc v.vid | none => acc) acc =
        acc ++ t := by
  induction l with
  | nil => intro acc; exact ⟨[], (List.append_nil acc).symm⟩
  | cons i tl ih =>
      intro acc
      simp only [List.foldl_cons]
      have hstep : ∃ t, (if m ≤ acc.length then acc
          else match vs.get? i with | some v => addIfNew acc v.vid | none => acc) =
          acc ++ t := by
        split
        · exact ⟨[], (List.append_nil acc).symm⟩
        · cases vs.get? i with
          | some v => exact addIfNew_eq_append acc v.vid
          | none => exact ⟨[], (List.append_nil acc).symm⟩
      obtain ⟨t1, ht1⟩ := hstep
      obtain ⟨t2, ht2⟩ := ih (if m ≤ acc.length then acc
        else match vs.get? i with | some v => addIfNew acc v.vid | none => acc)
      exact ⟨t1 ++ t2, by rw [ht2, ht1, List.append_assoc]⟩

/-- The time-distribution fold preserves `Nodup`. -/
theorem tbFold_nodup (m : ℕ) (vs : List PruneVersion) (l : List ℕ) :
    ∀ (acc : List ℕ), acc.Nodup →
      (l.foldl (fun acc i => if m ≤ acc.length then acc
        else match vs.get? i with | some v => addIfNew acc v.vid | none => acc) acc).Nodup := by
  induction l with
  | nil => intro acc h; exact h
  | cons i tl ih =>
      intro acc h
      simp only [List.foldl_cons]
      apply ih
      split
      · exact h
      · cases vs.get? i with
        | some v => exact addIfNew_nodup h _
        | none => exact h

set_option maxRecDepth 200000

/-- C2 counterexample: a page with 3 versions (newest first), cap 2,
whose two newest versions are significant (scores `0.4 ≥ 0.3`) and whose
oldest is not.  The significant versions alone number 2 ≤ cap, yet the
significant version with id 1 is evicted by the cap after the oldest is
anchored — refuting the claimed survival of all significant versions
whenever they alone number at most the cap. -/
theorem claim_C2_counterexample :
    (c2CexVersions.filter fun v => decide (mkRat 3 10 ≤ v.score)).length = 2 ∧
    2 ≤ (defaultPruneConfig 2).maxVersionsKept ∧
    (⟨1, mkRat 2 5⟩ : PruneVersion) ∈ c2CexVersions ∧
    mkRat 3 10 ≤ mkRat 2 5 ∧
    (⟨1, mkRat 2 5⟩ : PruneVersion) ∉ pruneOldVersions (defaultPruneConfig 2) c2CexVersions := by
  decide

/-- C2 (corrected): for a page whose version ids are distinct and a cap
of at least 1, under the default pruning policy: (a) at most
`max_versions_kept` versions remain; (b) the oldest version always
survives; (c) every version with score at or above the significance
threshold 0.3 survives whenever the significant versions plus the oldest
together number at most the cap (significant count + 1 ≤ cap); (d) if
the page had at most `max_versions_kept` versions, pruning deletes
nothing; and (e) on the concrete scenario of 60 versions, cap 50 and 5
significant versions, exactly 50 versions remain. -/
theorem claim_C2_prune_policy (m : ℕ) (vs : List PruneVersion)
    (hnd : (vs.map PruneVersion.vid).Nodup) (hm : 1 ≤ m) :
    (pruneOldVersions (defaultPruneConfig m) vs).length ≤ m ∧
    (∀ v, vs.getLast? = some v → v ∈ pruneOldVersions (defaultPruneConfig m) vs) ∧
    (∀ v ∈ vs, mkRat 3 10 ≤ v.score →
      (vs.filter fun u => decide (mkRat 3 10 ≤ u.score)).length + 1 ≤ m →
      v ∈ pruneOldVersions (defaultPruneConfig m) vs) ∧
    (vs.length ≤ m → pruneOldVersions (defaultPruneConfig m) vs = vs) ∧
    (pruneOldVersions (defaultPruneConfig 50) c2ScenarioVersions).length = 50 := by
  have hscen : (pruneOldVersions (defaultPruneConfig 50) c2ScenarioVersions).length = 50 := by
    decide
  by_cases hle : vs.length ≤ m
  · have hle' : vs.length ≤ (defaultPruneConfig m).maxVersionsKept := hle
    have heq : pruneOldVersions (defaultPruneConfig m) vs = vs := by
      unfold pruneOldVersions
      rw [if_pos hle']
    refine ⟨by rw [heq]; exact hle, ?_, ?_, fun _ => heq, hscen⟩
    · intro v hv
      rw [heq]
      exact List.mem_of_mem_getLast? hv
    · intro v hv _ _
      rw [heq]
      exact hv
  · -- the pruning branch
    have hle' : ¬ vs.length ≤ (defaultPruneConfig m).maxVersionsKept := hle
    have hlt : m < vs.length := not_le.mp hle
    have hne : vs ≠ [] := List.ne_nil_of_length_pos (by omega)
    obtain ⟨ov, hov⟩ : ∃ ov, vs.getLast? = some ov :=
      ⟨vs.getLast hne, List.getLast_mem_getLast? hne⟩
    have hpruneeq : pruneOldVersions (defaultPruneConfig m) vs =
        vs.filter fun v => decide (v.vid ∈ pruneKeepIds (defaultPruneConfig m) vs) := by
      unfold pruneOldVersions
      rw [if_neg hle']
    have hkeep0 : keepOldestIds (defaultPruneConfig m) vs = [ov.vid] := by
      unfold keepOldestIds
      rw [if_pos (show (defaultPruneConfig m).keepOldest = true from rfl), hov]
    have hgate : (0 : ℚ) < (defaultPruneConfig m).keepSignificantThreshold := by
      show (0 : ℚ) < mkRat 3 10
      decide
    have hkeep1 : ∀ acc, keepSignificantIds (defaultPruneConfig m) vs acc =
        vs.foldl (fun acc u =>
          if (defaultPruneConfig m).keepSignificantThreshold ≤ u.score then
            addIfNew acc u.vid else acc) acc := by
      intro acc
      unfold keepSignificantIds
      rw [if_pos hgate]
    have hkey : pruneKeepIds (defaultPruneConfig m) vs =
        (keepTimeBasedIds (defaultPruneConfig m) vs
          (keepSignificantIds (defaultPruneConfig m) vs [ov.vid])).take m := by
      unfold pruneKeepIds
      rw [hkeep0]
      rfl
    have htbappend : ∀ acc, ∃ t, keepTimeBasedIds (defaultPruneConfig m) vs acc = acc ++ t := by
      intro acc
      unfold keepTimeBasedIds
      split
      · exact tbFold_eq_append _ _ _ _
      · exact ⟨[], (List.append_nil acc).symm⟩
    have htbnodup : ∀ acc, acc.Nodup →
        (keepTimeBasedIds (defaultPruneConfig m) vs acc).Nodup := by
      intro acc h
      unfold keepTimeBasedIds
      split
      · exact tbFold_nodup _ _ _ _ h
      · exact h
    have hk1append : ∃ t, keepSignificantIds (defaultPruneConfig m) vs [ov.vid] =
        [ov.vid] ++ t := by
      rw [hkeep1]
      exact sigFold_eq_append _ _ _
    have hk1nodup : (keepSignificantIds (defaultPruneConfig m) vs [ov.vid]).Nodup := by
      rw [hkeep1]
      exact sigFold_nodup _ _ _ (List.nodup_singleton _)
    refine ⟨?_, ?_, ?_, fun h => absurd h hle, hscen⟩
    · -- (a) at most the cap survives
      rw [hpruneeq]
      have hsurnodup : ((vs.filter fun v =>
          decide (v.vid ∈ pruneKeepIds (defaultPruneConfig m) vs)).map PruneVersion.vid).Nodup :=
        List.Sublist.nodup ((List.filter_sublist vs).map PruneVersion.vid) hnd
      have hsubset : ((vs.filter fun v =>
          decide (v.vid ∈ pruneKeepIds (defaultPruneConfig m) vs)).map PruneVersion.vid) ⊆
          pruneKeepIds (defaultPruneConfig m) vs := by
        intro y hy
        obtain ⟨v, hvmem, rfl⟩ := List.mem_map.mp hy
        exact of_decide_eq_true (List.mem_filter.mp hvmem).2
      have h1 := (List.Nodup.subperm hsurnodup hsubset).length_le
      rw [List.length_map] at h1
      have h2 : (pruneKeepIds (defaultPruneConfig m) vs).length ≤ m := by
        rw [hkey]
        exact List.length_take_le _ _
      omega
    · -- (b) the oldest survives
      intro v hv
      obtain rfl : ov = v := Option.some.inj (hov.symm.trans hv)
      rw [hpruneeq]
      refine List.mem_filter.mpr ⟨List.mem_of_mem_getLast? hov, decide_eq_true ?_⟩
      rw [hkey]
      obtain ⟨t1, ht1⟩ := hk1append
      obtain ⟨t2, ht2⟩ :=
        htbappend (keepSignificantIds (defaultPruneConfig m) vs [ov.vid])
      rw [ht2, ht1, List.append_assoc, List.singleton_append]
      obtain ⟨m', rfl⟩ : ∃ m', m = m' + 1 := ⟨m - 1, by omega⟩
      rw [List.take_succ_cons]
      exact List.mem_cons_self _ _
    · -- (c) significant versions survive under the corrected cap bound
      intro v hvmem hvscore hcap
      rw [hpruneeq]
      refine List.mem_filter.mpr ⟨hvmem, decide_eq_true ?_⟩
      rw [hkey]
      obtain ⟨t2, ht2⟩ :=
        htbappend (keepSignificantIds (defaultPruneConfig m) vs [ov.vid])
      rw [ht2, List.take_append_eq_append_take]
      have hk1len : (keepSignificantIds (defaultPruneConfig m) vs [ov.vid]).length ≤ m := by
        rw [hkeep1]
        have h1 := sigFold_length ((defaultPruneConfig m).keepSignificantThreshold) vs [ov.vid]
        have h2 : (vs.filter fun u =>
            decide ((defaultPruneConfig m).keepSignificantThreshold ≤ u.score)).length =
            (vs.filter fun u => decide (mkRat 3 10 ≤ u.score)).length := rfl
        rw [h2] at h1
        simp only [List.length_singleton] at h1
        omega
      rw [List.take_of_length_le hk1len]
      apply List.mem_append_left
      rw [hkeep1]
      exact sigFold_mem_of _ vs _ hvmem hvscore

/-- Witness for C2's corrected statement on the concrete 60-version
scenario: the cap holds, the oldest version (id 59) survives, and
exactly 50 versions remain. -/
theorem claim_C2_prune_policy_witness :
    (pruneOldVersions (defaultPruneConfig 50) c2ScenarioVersions).length ≤ 50 ∧
    (⟨59, 0⟩ : PruneVersion) ∈ pruneOldVersions (defaultPruneConfig 50) c2ScenarioVersions ∧
    (pruneOldVersions (defaultPruneConfig 50) c2ScenarioVersions).length = 50 :=
  ⟨(claim_C2_prune_policy 50 c2ScenarioVersions (by decide) (by decide)).1,
   (claim_C2_prune_policy 50 c2ScenarioVersions (by decide) (by decide)).2.1 ⟨59, 0⟩ (by decide),
   (claim_C2_prune_policy 50 c2ScenarioVersions (by decide) (by decide)).2.2.2.2⟩

/-! ### `SequenceMatcher` on two equal sequences

For `compare_text(text, text)` the line-level matcher runs on two equal
line lists; the dynamic program then grows the diagonal chain one step
per outer iteration, and no off-diagonal chain can overtake it, so
`find_longest_match` returns the whole (aligned) window. -/

/-- Invariant of the inner loop of `find_longest_match` on an aligned
self-comparison window: processing the ascending candidate list turns a
best match `(alo, alo, n)` into `(alo, alo, n+1)` — the diagonal chain
grows by exactly one — and the freshly built `newj2len` dict keeps every
chain length at most `n+1` and at most its diagonal bound. -/
theorem flmInner_self (alo n i : ℕ) (j2len : ℕ → ℕ) (hi : i = n + alo)
    (hJ2 : ∀ j, j2len j ≤ n) (hJ3 : ∀ j, j2len j ≤ j + 1 - alo)
    (hJ4 : (if i = 0 then 0 else j2len (i - 1)) = n) :
    ∀ (js : List ℕ) (g : ℕ → ℕ) (best : ℕ × ℕ × ℕ),
      js.Pairwise (· < ·) →
      (∀ j ∈ js, alo ≤ j) →
      (∀ j, g j ≤ n + 1 ∧ g j ≤ j + 1 - alo) →
      ((best = (alo, alo, n) ∧ i ∈ js) ∨ (best = (alo, alo, n + 1) ∧ g i = n + 1 ∧ i ∉ js)) →
      ∃ g' : ℕ → ℕ,
        js.foldl (flmInnerStep j2len i) (g, best) = (g', (alo, alo, n + 1)) ∧
        g' i = n + 1 ∧ (∀ j, g' j ≤ n + 1 ∧ g' j ≤ j + 1 - alo) := by
  intro js
  induction js with
  | nil =>
      intro g best _ _ hg hinv
      rcases hinv with ⟨_, hmem⟩ | ⟨hbest, hgi, _⟩
      · exact absurd hmem (List.not_mem_nil _)
      · exact ⟨g, by rw [List.foldl_nil, hbest], hgi, hg⟩
  | cons j js ih =>
      intro g best hpw hmlo hg hinv
      have hpw' := (List.pairwise_cons.mp hpw).2
      have hhead := (List.pairwise_cons.mp hpw).1
      have hmlo' : ∀ x ∈ js, alo ≤ x := fun x hx => hmlo x (List.mem_cons_of_mem _ hx)
      have haloj : alo ≤ j := hmlo j (List.mem_cons_self _ _)
      -- bounds on the chain length computed for this candidate
      have hk1 : (if j = 0 then 0 else j2len (j - 1)) + 1 ≤ n + 1 := by
        by_cases hj0 : j = 0
        · rw [if_pos hj0]; omega
        · rw [if_neg hj0]; have := hJ2 (j - 1); omega
      have hk2 : (if j = 0 then 0 else j2len (j - 1)) + 1 ≤ j + 1 - alo := by
        by_cases hj0 : j = 0
        · rw [if_pos hj0]; omega
        · rw [if_neg hj0]; have := hJ3 (j - 1); omega
      rw [List.foldl_cons]
      rcases hinv with ⟨hbest, hmem⟩ | ⟨hbest, hgi, hnotin⟩
      · -- phase A: the diagonal step is still ahead
        subst hbest
        by_cases hij : j = i
        · -- the diagonal step itself: the best match grows
          subst hij
          have hkval : (if j = 0 then 0 else j2len (j - 1)) + 1 = n + 1 := by rw [hJ4]
          have hstep : flmInnerStep j2len j (g, (alo, alo, n)) j =
              ((fun j' => if j' = j then n + 1 else g j'), (alo, alo, n + 1)) := by
            simp only [flmInnerStep, hkval]
            rw [if_pos (by omega : n < n + 1)]
            have h1 : j + 1 - (n + 1) = alo := by omega
            rw [h1]
          rw [hstep]
          apply ih _ _ hpw' hmlo'
          · intro j'
            by_cases hj' : j' = j
            · subst hj'
              rw [if_pos rfl]
              omega
            · rw [if_neg hj']
              exact hg j'
          · refine Or.inr ⟨rfl, by rw [if_pos rfl], fun hmem' => ?_⟩
            exact absurd (hhead j hmem') (lt_irrefl j)
        · -- a pre-diagonal candidate: no update of the best match
          have hmem' : i ∈ js := by
            rcases List.mem_cons.mp hmem with h | h
            · exact absurd h.symm hij
            · exact h
          have hji : j < i := hhead i hmem'
          have hkle : (if j = 0 then 0 else j2len (j - 1)) + 1 ≤ n := by
            have : j + 1 - alo ≤ n := by omega
            omega
          have hstep : flmInnerStep j2len i (g, (alo, alo, n)) j =
              ((fun j' => if j' = j then (if j = 0 then 0 else j2len (j - 1)) + 1
                else g j'), (alo, alo, n)) := by
            simp only [flmInnerStep]
            rw [if_neg (by omega : ¬ n < (if j = 0 then 0 else j2len (j - 1)) + 1)]
          rw [hstep]
          apply ih _ _ hpw' hmlo'
          · intro j'
            by_cases hj' : j' = j
            · subst hj'
              rw [if_pos rfl]
              omega
            · rw [if_neg hj']
              exact hg j'
          · exact Or.inl ⟨rfl, hmem'⟩
      · -- phase B: the diagonal step is already done, nothing can overtake
        subst hbest
        have hjne : j ≠ i := fun h => hnotin (h ▸ List.mem_cons_self _ _)
        have hstep : flmInnerStep j2len i (g, (alo, alo, n + 1)) j =
            ((fun j' => if j' = j then (if j = 0 then 0 else j2len (j - 1)) + 1
              else g j'), (alo, alo, n + 1)) := by
          simp only [flmInnerStep]
          rw [if_neg (by omega : ¬ n + 1 < (if j = 0 then 0 else j2len (j - 1)) + 1)]
        rw [hstep]
        apply ih _ _ hpw' hmlo'
        · intro j'
          by_cases hj' : j' = j
          · subst hj'
            rw [if_pos rfl]
            omega
          · rw [if_neg hj']
            exact hg j'
        · refine Or.inr ⟨rfl, ?_, fun hmem' => hnotin (List.mem_cons_of_mem _ hmem')⟩
          rw [if_neg (fun h => hjne h.symm)]
          exact hgi

/-- Membership in the candidate-position list. -/
theorem mem_flmCandidates {α : Type} [DecidableEq α] {a b : List α}
    {blo bhi i j : ℕ} :
    j ∈ flmCandidates a b blo bhi i ↔
      j < b.length ∧ blo ≤ j ∧ j < bhi ∧ b.get? j = a.get? i := by
  simp [flmCandidates, List.mem_filter, List.mem_range, and_assoc]

/-- The candidate positions are strictly ascending. -/
theorem flmCandidates_pairwise {α : Type} [DecidableEq α] (a b : List α)
    (blo bhi i : ℕ) : (flmCandidates a b blo bhi i).Pairwise (· < ·) :=
  List.Pairwise.sublist (List.filter_sublist _) (List.pairwise_lt_range _)

/-- Invariant of the outer loop of `find_longest_match` on an aligned
self-comparison window: after `n` iterations the best match is the
diagonal `(alo, alo, n)` and the chain-length dict is bounded by `n` and
by the diagonal bound, with the diagonal entry exact. -/
theorem flmOuter_self {α : Type} [DecidableEq α] (l : List α) (alo ahi : ℕ)
    (hle : ahi ≤ l.length) :
    ∀ n, alo + n ≤ ahi →
      ∃ g : ℕ → ℕ,
        ((List.range n).map (· + alo)).foldl (flmOuterStep l l alo ahi)
          ((fun _ => 0), (alo, alo, 0)) = (g, (alo, alo, n)) ∧
        (∀ j, g j ≤ n ∧ g j ≤ j + 1 - alo) ∧
        (1 ≤ n → g (alo + n - 1) = n) := by
  intro n
  induction n with
  | zero =>
      intro _
      exact ⟨fun _ => 0, rfl, fun j => ⟨le_refl 0, Nat.zero_le _⟩, by omega⟩
  | succ n ihn =>
      intro hsucc
      obtain ⟨g, hst, hb, h4⟩ := ihn (by omega)
      rw [List.range_succ, List.map_append, List.foldl_append, hst]
      simp only [List.map_cons, List.map_nil, List.foldl_cons, List.foldl_nil]
      show ∃ g', flmOuterStep l l alo ahi (g, (alo, alo, n)) (n + alo) = _ ∧ _
      unfold flmOuterStep
      have hilt : n + alo < ahi := by omega
      have hmem : (n + alo) ∈ flmCandidates l l alo ahi (n + alo) :=
        mem_flmCandidates.mpr ⟨by omega, by omega, hilt, rfl⟩
      have hJ4 : (if n + alo = 0 then 0 else g (n + alo - 1)) = n := by
        by_cases hn0 : n = 0
        · subst hn0
          by_cases ha0 : alo = 0
          · subst ha0; rfl
          · rw [if_neg (by omega)]
            have := (hb (0 + alo - 1)).1
            omega
        · rw [if_neg (by omega)]
          have := h4 (by omega)
          have harw : n + alo - 1 = alo + n - 1 := by omega
          rw [harw]
          omega
      obtain ⟨g', hfold, hgi, hb'⟩ := flmInner_self alo n (n + alo) g rfl
        (fun j => (hb j).1) (fun j => (hb j).2) hJ4
        (flmCandidates l l alo ahi (n + alo)) (fun _ => 0) (alo, alo, n)
        (flmCandidates_pairwise l l alo ahi (n + alo))
        (fun j hj => (mem_flmCandidates.mp hj).2.1)
        (fun j => ⟨Nat.zero_le _, Nat.zero_le _⟩)
        (Or.inl ⟨rfl, hmem⟩)
      refine ⟨g', ?_, hb', ?_⟩
      · show (flmCandidates l l alo ahi (n + alo)).foldl
          (flmInnerStep ((g, (alo, alo, n)) : (ℕ → ℕ) × ℕ × ℕ × ℕ).1 (n + alo))
          ((fun _ => 0), ((g, (alo, alo, n)) : (ℕ → ℕ) × ℕ × ℕ × ℕ).2) = _
        exact hfold
      · intro _
        have harw : alo + (n + 1) - 1 = n + alo := by omega
        rw [harw]
        exact hgi

/-- The low-extension loop does nothing when the match already starts at
the window boundary. -/
theorem flmExtendLow_boundary {α : Type} [DecidableEq α] (a b : List α)
    (alo blo d : ℕ) : ∀ fuel, flmExtendLow a b alo blo fuel (alo, blo, d) = (alo, blo, d) := by
  intro fuel
  cases fuel with
  | zero => rfl
  | succ f =>
      show (if alo < alo ∧ _ ∧ _ then _ else _) = _
      rw [if_neg (fun h => absurd h.1 (lt_irrefl alo))]

/-- The high-extension loop does nothing when the match already ends at
the window boundary. -/
theorem flmExtendHigh_boundary {α : Type} [DecidableEq α] (a b : List α)
    (ahi bhi bi bj d : ℕ) (h : ¬ bi + d < ahi) :
    ∀ fuel, flmExtendHigh a b ahi bhi fuel (bi, bj, d) = (bi, bj, d) := by
  intro fuel
  cases fuel with
  | zero => rfl
  | succ f =>
      show (if bi + d < ahi ∧ _ ∧ _ then _ else _) = _
      rw [if_neg (fun hc => absurd hc.1 h)]

/-- On an aligned self-comparison window, `find_longest_match` returns
the whole window as the (diagonal) longest match. -/
theorem findLongestMatch_self {α : Type} [DecidableEq α] (l : List α)
    (alo ahi : ℕ) (h1 : alo ≤ ahi) (h2 : ahi ≤ l.length) :
    findLongestMatch l l alo ahi alo ahi = (alo, alo, ahi - alo) := by
  obtain ⟨g, hst, _, _⟩ := flmOuter_self l alo ahi h2 (ahi - alo) (by omega)
  unfold findLongestMatch
  rw [hst]
  show flmExtendHigh l l ahi ahi ahi (flmExtendLow l l alo alo alo (alo, alo, ahi - alo)) =
    (alo, alo, ahi - alo)
  rw [flmExtendLow_boundary]
  exact flmExtendHigh_boundary l l ahi ahi alo alo (ahi - alo) (by omega) ahi

/-- On an empty aligned window the block recursion yields no blocks. -/
theorem matchingBlocksAux_self_empty {α : Type} [DecidableEq α] (l : List α)
    (c : ℕ) (hc : c ≤ l.length) :
    ∀ fuel, matchingBlocksAux l l fuel c c c c = [] := by
  intro fuel
  cases fuel with
  | zero => rfl
  | succ f =>
      unfold matchingBlocksAux
      rw [findLongestMatch_self l c c (le_refl c) hc]
      rw [if_pos (by omega : c - c = 0)]

/-- On an aligned self-comparison window the block recursion yields the
single full-window diagonal block (or nothing when the window is
empty). -/
theorem matchingBlocksAux_self {α : Type} [DecidableEq α] (l : List α)
    (alo ahi : ℕ) (h1 : alo ≤ ahi) (h2 : ahi ≤ l.length) :
    ∀ fuel, matchingBlocksAux l l (fuel + 1) alo ahi alo ahi =
      if ahi - alo = 0 then [] else [(alo, alo, ahi - alo)] := by
  intro fuel
  unfold matchingBlocksAux
  rw [findLongestMatch_self l alo ahi h1 h2]
  by_cases hd : ahi - alo = 0
  · rw [if_pos hd, if_pos hd]
  · rw [if_neg hd, if_neg hd]
    have hsub : alo + (ahi - alo) = ahi := by omega
    rw [matchingBlocksAux_self_empty l alo (by omega) fuel]
    rw [hsub, matchingBlocksAux_self_empty l ahi h2 fuel]
    simp

/-- On two equal sequences the matching blocks are the full run followed
by the sentinel. -/
theorem getMatchingBlocks_self {α : Type} [DecidableEq α] (l : List α) :
    getMatchingBlocks l l =
      if l.length = 0 then [(0, 0, 0)]
      else [(0, 0, l.length), (l.length, l.length, 0)] := by
  unfold getMatchingBlocks
  have hmb := matchingBlocksAux_self l 0 l.length (Nat.zero_le _) (le_refl _)
    (l.length + l.length)
  rw [hmb]
  by_cases h0 : l.length = 0
  · rw [if_pos (by omega), if_pos h0, h0]
    rfl
  · rw [if_neg (by omega), if_neg h0]
    show mergeBlocksLoop (0, 0, 0) [(0, 0, l.length - 0)] ++ _ = _
    have : l.length - 0 = l.length := by omega
    rw [this]
    show (if 0 + 0 = 0 ∧ 0 + 0 = 0 then mergeBlocksLoop (0, 0, 0 + l.length) []
      else _) ++ _ = _
    rw [if_pos ⟨rfl, rfl⟩]
    show (if 0 + l.length ≠ 0 then [(0, 0, 0 + l.length)] else []) ++ _ = _
    rw [if_pos (by omega)]
    simp only [Nat.zero_add]
    rfl

/-- On two equal sequences every opcode is `equal`. -/
theorem getOpcodes_self {α : Type} [DecidableEq α] (l : List α) :
    getOpcodes l l =
      if l.length = 0 then [] else [⟨.equal, 0, l.length, 0, l.length⟩] := by
  unfold getOpcodes
  rw [getMatchingBlocks_self]
  by_cases h0 : l.length = 0
  · rw [if_pos h0, if_pos h0]
    rfl
  · rw [if_neg h0, if_neg h0]
    show (if 0 < 0 ∧ 0 < 0 then _ else if 0 < 0 then _ else if 0 < 0 then _ else []) ++
      (if l.length ≠ 0 then [(⟨.equal, 0, 0 + l.length, 0, 0 + l.length⟩ : Opcode)] else []) ++
      opcodesLoop (0 + l.length) (0 + l.length) [(l.length, l.length, 0)] = _
    rw [if_neg (by omega : ¬ ((0:ℕ) < 0 ∧ (0:ℕ) < 0)), if_neg (lt_irrefl 0),
      if_neg (lt_irrefl 0), if_pos h0]
    simp only [Nat.zero_add, List.nil_append]
    show [(⟨.equal, 0, l.length, 0, l.length⟩ : Opcode)] ++
      ((if l.length < l.length ∧ l.length < l.length then _
        else if l.length < l.length then _ else if l.length < l.length then _ else []) ++
       (if (0:ℕ) ≠ 0 then _ else []) ++ opcodesLoop (l.length + 0) (l.length + 0) []) = _
    rw [if_neg (by omega : ¬ (l.length < l.length ∧ l.length < l.length)),
      if_neg (lt_irrefl l.length), if_neg (lt_irrefl l.length),
      if_neg (by omega : ¬ (0:ℕ) ≠ 0)]
    simp
    rfl

/-- C7 (confirmed): `compare_text` on an empty old text and non-empty new
text returns exactly one `ADDED` change carrying the whole new text; on a
non-empty old text and empty new text exactly one `REMOVED` change
carrying the whole old text; and on two identical texts it returns the
empty change list. -/
theorem claim_C7_compare_text_edges (oldText newText t : String)
    (h1 : newText ≠ "") (h2 : oldText ≠ "") :
    (∃ c, compareText "" newText = [c] ∧ c.changeType = .added ∧
      c.newContent = newText ∧ c.oldContent = "") ∧
    (∃ c, compareText oldText "" = [c] ∧ c.changeType = .removed ∧
      c.oldContent = oldText ∧ c.newContent = "") ∧
    compareText t t = [] := by
  refine ⟨?_, ?_, ?_⟩
  · have heq : compareText "" newText =
        [{ changeType := .added, oldContent := "", newContent := newText,
           lineRangeOld := (0, 0), lineRangeNew := (0, (pySplitlines newText).length),
           contextBefore := "", contextAfter := "", highlightedOld := "",
           highlightedNew := highlightAddedText newText, changeSummary := none }] := by
      unfold compareText
      rw [if_pos ⟨rfl, h1⟩]
    exact ⟨_, heq, rfl, rfl, rfl⟩
  · have heq : compareText oldText "" =
        [{ changeType := .removed, oldContent := oldText, newContent := "",
           lineRangeOld := (0, (pySplitlines oldText).length), lineRangeNew := (0, 0),
           contextBefore := "", contextAfter := "",
           highlightedOld := highlightRemovedText oldText, highlightedNew := "",
           changeSummary := none }] := by
      unfold compareText
      rw [if_neg (fun h => h.2 rfl), if_pos ⟨h2, rfl⟩]
    exact ⟨_, heq, rfl, rfl, rfl⟩
  · have hA : ¬ (t = "" ∧ t ≠ "") := fun h => h.2 h.1
    have hB : ¬ (t ≠ "" ∧ t = "") := fun h => h.1 h.2
    unfold compareText
    rw [if_neg hA, if_neg hB]
    show (getOpcodes (pySplitlinesKeepends t) (pySplitlinesKeepends t)).flatMap
      (opcodeChanges (pySplitlinesKeepends t) (pySplitlinesKeepends t)) = []
    rw [getOpcodes_self]
    by_cases h0 : (pySplitlinesKeepends t).length = 0
    · rw [if_pos h0]
      rfl
    · rw [if_neg h0]
      rfl

/-- Witness for C7 at concrete texts. -/
theorem claim_C7_compare_text_edges_witness :
    (∃ c, compareText "" "xyz" = [c] ∧ c.changeType = .added ∧
      c.newContent = "xyz" ∧ c.oldContent = "") ∧
    (∃ c, compareText "abc" "" = [c] ∧ c.changeType = .removed ∧
      c.oldContent = "abc" ∧ c.newContent = "") ∧
    compareText "same" "same" = [] :=
  claim_C7_compare_text_edges "abc" "xyz" "same" (by decide) (by decide)
